import Mathlib

/-!
A verification development for the kcl-openapi schema-to-model compiler
(`pkg/swagger/generator`): a shallow embedding of the swagger schema data
model, the type resolver (`types.go`) and the schema generation context
engine (`model.go`), together with theorems settling the specification
claims about them.

Modelling conventions:
* Go `string` is `String`, Go slices are `List`, Go maps are association
  lists (`List (key × value)`); the stored list order stands for one
  (nondeterministic) Go map iteration order, and theorems about ordering
  quantify over permutations of that list.
* Nullable Go pointers are `Option`.
* Numeric validation values (`float64` in Go) are `Option Int`: no claim
  inspects their magnitude, only their presence, and all concrete inputs
  use integral values.
* Functions that can fail (Go `error` returns and `log.Fatalf`) return
  `Except String`.
* Recursion through the schema graph is bounded by an explicit fuel
  parameter; the Go code assumes an acyclic (canonicalized) document and
  would not terminate otherwise either.
* Renderer-only string bookkeeping of the generation context
  (`ValueExpr`, `IndexVar`, `KeyVar`, `Receiver`, XML names, and the
  `Default`/`Example` payloads) is omitted: no verified property observes
  it.  The external go-openapi `analysis` library is modelled as an
  explicit analyzer argument, and the external `swag` name helpers are
  modelled from their documented contract.
-/

set_option maxHeartbeats 1000000

namespace KclOpenapi

/-- A value appearing in a schema `enum` list.  Go stores `interface{}`
and `pruneEnums` distinguishes nil, the scalar kinds
(`bool`, `string`, `int`, `float64`, `float32`) and everything else
("complex").  Numeric payloads are collapsed to `Int`; no claim inspects
their magnitude. -/
inductive EnumVal where
  | vNull : EnumVal
  | vBool (b : Bool) : EnumVal
  | vStr (s : String) : EnumVal
  | vNum (n : Int) : EnumVal
  | vComplex : EnumVal
deriving DecidableEq, Repr

/-- The `import` object of the `x-kcl-type` vendor extension. -/
structure XKclImport where
  packagePath : String
  aliasName : Option String := none
deriving DecidableEq, Repr

/-- The `x-kcl-type` vendor extension: reuse an existing named type. -/
structure XKclTypeExt where
  typeName : String
  importInfo : Option XKclImport := none
deriving DecidableEq, Repr

/-- The vendor extensions inspected by the generator
(`x-kcl-name`, `x-kcl-type`, `x-kubernetes-int-or-string`,
`x-omitempty`, `x-order`, `x-schema`). `x-order` values are written by
the preprocessing pass as consecutive integers (Go reads them back as
`float64`). -/
structure Exts where
  xKclName : Option String := none
  xKclType : Option XKclTypeExt := none
  xIntOrString : Option Bool := none
  xOmitEmpty : Option Bool := none
  xOrder : Option Int := none
  xSchemaName : Option String := none
deriving DecidableEq, Repr

/-- The validation constraints of a schema node (`spec.Schema` fields). -/
structure SchemaVals where
  maximum : Option Int := none
  exclusiveMaximum : Bool := false
  minimum : Option Int := none
  exclusiveMinimum : Bool := false
  maxLength : Option Int := none
  minLength : Option Int := none
  pattern : String := ""
  maxItems : Option Int := none
  minItems : Option Int := none
  uniqueItems : Bool := false
  multipleOf : Option Int := none
deriving DecidableEq, Repr

/-- The scalar (non-recursive) part of a schema node. -/
structure SchemaCore where
  ref : String := ""
  type : List String := []
  format : String := ""
  title : String := ""
  description : String := ""
  discriminator : String := ""
  required : List String := []
  enum : List EnumVal := []
  exts : Exts := {}
  vals : SchemaVals := {}
  readOnly : Bool := false
  hasDefault : Bool := false
deriving DecidableEq, Repr

/-- A swagger schema node (`spec.Schema`).  `items` mirrors `spec.Items`:
`hasItems` is `Items != nil`, `itemsSingle` is `Items.Schema` and
`itemsTuple` is `Items.Schemas`.  `additionalProperties` and
`additionalItems` mirror `spec.SchemaOrBool`: `(Allows, Schema)`. -/
inductive Schema where
  | mk (core : SchemaCore)
       (properties : List (String × Schema))
       (hasItems : Bool)
       (itemsSingle : Option Schema)
       (itemsTuple : List Schema)
       (additionalProperties : Option (Bool × Option Schema))
       (additionalItems : Option (Bool × Option Schema))
       (allOf : List Schema)

def Schema.core : Schema → SchemaCore
  | .mk c _ _ _ _ _ _ _ => c

def Schema.properties : Schema → List (String × Schema)
  | .mk _ p _ _ _ _ _ _ => p

def Schema.hasItems : Schema → Bool
  | .mk _ _ h _ _ _ _ _ => h

def Schema.itemsSingle : Schema → Option Schema
  | .mk _ _ _ i _ _ _ _ => i

def Schema.itemsTuple : Schema → List Schema
  | .mk _ _ _ _ t _ _ _ => t

def Schema.additionalProperties : Schema → Option (Bool × Option Schema)
  | .mk _ _ _ _ _ a _ _ => a

def Schema.additionalItems : Schema → Option (Bool × Option Schema)
  | .mk _ _ _ _ _ _ a _ => a

def Schema.allOf : Schema → List Schema
  | .mk _ _ _ _ _ _ _ a => a

def Schema.ref (s : Schema) : String := s.core.ref

def Schema.type (s : Schema) : List String := s.core.type

def Schema.format (s : Schema) : String := s.core.format

def Schema.discriminator (s : Schema) : String := s.core.discriminator

def Schema.exts (s : Schema) : Exts := s.core.exts

def Schema.vals (s : Schema) : SchemaVals := s.core.vals

def Schema.requiredNames (s : Schema) : List String := s.core.required

def Schema.enum (s : Schema) : List EnumVal := s.core.enum

/-- Rebuild a schema with a new scalar core. -/
def Schema.withCore (s : Schema) (c : SchemaCore) : Schema :=
  match s with
  | .mk _ p h i t a b o => .mk c p h i t a b o

/-- Rebuild a schema with a new allOf list. -/
def Schema.withAllOf (s : Schema) (l : List Schema) : Schema :=
  match s with
  | .mk c p h i t a b _ => .mk c p h i t a b l

/-- Rebuild a schema with a new additionalProperties entry. -/
def Schema.withAdditionalProperties (s : Schema)
    (ap : Option (Bool × Option Schema)) : Schema :=
  match s with
  | .mk c p h i t _ b o => .mk c p h i t ap b o

/-- Rebuild a schema with a new additionalItems entry. -/
def Schema.withAdditionalItems (s : Schema)
    (ai : Option (Bool × Option Schema)) : Schema :=
  match s with
  | .mk c p h i t a _ o => .mk c p h i t a ai o

/-- The zero value `spec.Schema{}`. -/
def Schema.empty : Schema := .mk {} [] false none [] none none []

/-- `spec.RefProperty(r)`: a bare reference schema. -/
def refProperty (r : String) : Schema :=
  .mk { ref := r } [] false none [] none none []

/-- The swagger type-name constants of `types.go`. -/
def strT : String := "string"

def objectT : String := "object"

def arrayT : String := "array"

def numberT : String := "number"

def integerT : String := "integer"

def booleanT : String := "boolean"

def anyT : String := "any"

def intOrStrT : String := "intorstring"

/-- `typeMapping` of `formats.go`: type/format name → kcl type. -/
def typeMapping : String → Option String
  | "string" => some "str"
  | "boolean" => some "bool"
  | "integer" => some "int"
  | "number" => some "float"
  | "intorstring" => some "int | str"
  | _ => none

/-- `formatMapping` of `formats.go`: swagger type → format name → kcl type. -/
def formatMapping : String → String → Option String
  | "number", "float" => some "float"
  | "number", "int" => some "int"
  | "number", "int8" => some "int"
  | "number", "int16" => some "int"
  | "number", "int32" => some "int"
  | "integer", "int" => some "int"
  | "integer", "int8" => some "int"
  | "integer", "int16" => some "int"
  | "integer", "int32" => some "int"
  | _, _ => none

end KclOpenapi

namespace KclOpenapi

/-- Splitting a character list at every separator satisfying `p`,
keeping empty segments (the behaviour of Go's `strings.Split` and of
`String.split` for these uses), implemented structurally so that it
evaluates by kernel reduction. -/
def splitCharAux (p : Char → Bool) : List Char → List Char → List String
  | [], acc => [String.mk acc.reverse]
  | c :: rest, acc =>
    if p c then String.mk acc.reverse :: splitCharAux p rest []
    else splitCharAux p rest (c :: acc)

/-- Split a string at every character satisfying `p`. -/
def splitPred (p : Char → Bool) (s : String) : List String :=
  splitCharAux p s.data []

/-- Split a string at every occurrence of the separator character. -/
def splitChar (sep : Char) (s : String) : List String :=
  splitPred (fun c => c = sep) s

/-- Upper-case the first character (`strings.Title` on one word). -/
def strCapitalize (s : String) : String :=
  match s.data with
  | [] => ""
  | c :: rest => String.mk (c.toUpper :: rest)

/-- Lower-case the first character. -/
def strDecapitalize (s : String) : String :=
  match s.data with
  | [] => ""
  | c :: rest => String.mk (c.toLower :: rest)

/-- Strip a prefix from a character list (`strings.HasPrefix` plus the
byte slice `r[len(prefix):]`; for the ASCII prefixes used here byte and
character offsets coincide). -/
def dropPrefixChars : List Char → List Char → Option (List Char)
  | [], rest => some rest
  | _ :: _, [] => none
  | p :: ps, c :: cs => if p = c then dropPrefixChars ps cs else none

/-- The KCL reserved words of `KclLangOpts` (`language.go`). -/
def kclReservedWords : List String :=
  ["import", "as", "rule", "schema", "mixin", "protocol", "relaxed",
   "check", "for", "assert", "if", "elif", "else", "or", "and", "not",
   "in", "is", "final", "lambda", "all", "filter", "map", "type"]

/-- `LanguageOpts.MangleModelName` (`language.go`): replace `-`/`.` in the
last dot-segment by `_`, then prefix `$` when the whole name is a KCL
reserved word. -/
def mangleModelName (modelName : String) : String :=
  let parts := splitChar '.' modelName
  let shortName := parts.getLastD modelName
  let m :=
    if shortName.data.any (fun c => c = '-') then
      String.intercalate "." (parts.dropLast ++
        [String.mk (shortName.data.map fun c => if c = '-' then '_' else c)])
    else modelName
  if kclReservedWords.contains m then "$" ++ m else m

/-- Modelled from the contract of the external `swag.ToGoName` helper:
split a name on separators and join the parts capitalized (Pascal case).
The initialism table of the real library is not modelled; no claim
observes names that would differ. -/
def toGoName (name : String) : String :=
  let parts := (splitPred
    (fun c => c = ' ' || c = '-' || c = '_' || c = '.') name).filter (· ≠ "")
  String.join (parts.map strCapitalize)

/-- Modelled from the contract of the external `swag.ToVarName` helper:
like `ToGoName` with a lower-case initial. -/
def toVarName (name : String) : String :=
  strDecapitalize (toGoName name)

/-- Go `path.Base` restricted to non-empty slash-separated paths. -/
def pathBase (p : String) : String :=
  (splitChar '/' p).getLastD p

/-- The base name of a `#/definitions/Name` reference
(`filepath.Base` of the fragment). -/
def refBase (r : String) : String :=
  (splitChar '/' r).getLastD r

/-- `knownDefKclType` (`types.go`): kcl type name, package, package alias
and module for a definition, honoring the `x-kcl-name` and `x-kcl-type`
vendor extensions. -/
def knownDefKclType (defName : String) (schema : Schema)
    (clear : Option (String → String)) : String × String × String × String :=
  match schema.exts.xKclName with
  | some nm =>
    match clear with
    | none => (nm, "", "", "")
    | some f => (f nm, "", "", "")
  | none =>
    match schema.exts.xKclType with
    | none =>
      match clear with
      | none => (defName, "", "", "")
      | some f => (f defName, "", "", "")
    | some xt =>
      let clearedTpe := match clear with
        | none => xt.typeName
        | some f => f xt.typeName
      match xt.importInfo with
      | none => (clearedTpe, "", "", "")
      | some imp =>
        let pkg := imp.packagePath
        let pkgParts := splitChar '.' pkg
        let newPkg :=
          if pkgParts.length ≤ 1 then pkg
          else String.intercalate "." pkgParts.dropLast
        let newParts := splitChar '.' newPkg
        let aliasPart := newParts.getLastD newPkg
        let module := match imp.aliasName with
          | some al => al
          | none => pathBase pkg
        (clearedTpe, newPkg, aliasPart, module)

/-- The flag fields of `resolvedType` (`types.go`). -/
structure RTFlags where
  isAnonymous : Bool := false
  isArray : Bool := false
  isMap : Bool := false
  isPrimitive : Bool := false
  isEmptyOmitted : Bool := false
  isTuple : Bool := false
  hasAdditionalItems : Bool := false
  isComplexObject : Bool := false
  isBaseType : Bool := false
  hasDiscriminator : Bool := false
deriving DecidableEq, Repr

/-- `resolvedType` (`types.go`): the result of type resolution.
`IsJSONString`/`IsBase64` are never set by this generator and are not
modelled. -/
inductive ResolvedType where
  | mk (flags : RTFlags) (kclType : String) (swaggerType : String)
       (swaggerFormat : String) (pkg : String) (pkgAlias : String)
       (module : String) (elemType : Option ResolvedType)

def ResolvedType.flags : ResolvedType → RTFlags
  | .mk f _ _ _ _ _ _ _ => f

def ResolvedType.kclType : ResolvedType → String
  | .mk _ k _ _ _ _ _ _ => k

def ResolvedType.swaggerType : ResolvedType → String
  | .mk _ _ s _ _ _ _ _ => s

def ResolvedType.swaggerFormat : ResolvedType → String
  | .mk _ _ _ f _ _ _ _ => f

def ResolvedType.pkg : ResolvedType → String
  | .mk _ _ _ _ p _ _ _ => p

def ResolvedType.pkgAlias : ResolvedType → String
  | .mk _ _ _ _ _ a _ _ => a

def ResolvedType.module : ResolvedType → String
  | .mk _ _ _ _ _ _ m _ => m

def ResolvedType.elemType : ResolvedType → Option ResolvedType
  | .mk _ _ _ _ _ _ _ e => e

/-- The zero value `resolvedType{}`. -/
def ResolvedType.default : ResolvedType := .mk {} "" "" "" "" "" "" none

def ResolvedType.withFlags (r : ResolvedType) (f : RTFlags) : ResolvedType :=
  .mk f r.kclType r.swaggerType r.swaggerFormat r.pkg r.pkgAlias r.module r.elemType

def ResolvedType.withKclType (r : ResolvedType) (k : String) : ResolvedType :=
  .mk r.flags k r.swaggerType r.swaggerFormat r.pkg r.pkgAlias r.module r.elemType

def ResolvedType.withSwaggerType (r : ResolvedType) (s : String) : ResolvedType :=
  .mk r.flags r.kclType s r.swaggerFormat r.pkg r.pkgAlias r.module r.elemType

def ResolvedType.withSwaggerFormat (r : ResolvedType) (s : String) : ResolvedType :=
  .mk r.flags r.kclType r.swaggerType s r.pkg r.pkgAlias r.module r.elemType

def ResolvedType.withPkgInfo (r : ResolvedType) (pkg pkgAlias module : String) : ResolvedType :=
  .mk r.flags r.kclType r.swaggerType r.swaggerFormat pkg pkgAlias module r.elemType

def ResolvedType.withElemType (r : ResolvedType) (e : Option ResolvedType) : ResolvedType :=
  .mk r.flags r.kclType r.swaggerType r.swaggerFormat r.pkg r.pkgAlias r.module e

def ResolvedType.withIsMap (r : ResolvedType) (b : Bool) : ResolvedType :=
  r.withFlags { r.flags with isMap := b }

def ResolvedType.withIsComplexObject (r : ResolvedType) (b : Bool) : ResolvedType :=
  r.withFlags { r.flags with isComplexObject := b }

def ResolvedType.withIsBaseType (r : ResolvedType) (b : Bool) : ResolvedType :=
  r.withFlags { r.flags with isBaseType := b }

def ResolvedType.withHasDiscriminator (r : ResolvedType) (b : Bool) : ResolvedType :=
  r.withFlags { r.flags with hasDiscriminator := b }

def ResolvedType.withIsEmptyOmitted (r : ResolvedType) (b : Bool) : ResolvedType :=
  r.withFlags { r.flags with isEmptyOmitted := b }

/-- `resolvedType.setIsEmptyOmitted` (`types.go`). -/
def ResolvedType.setIsEmptyOmitted (r : ResolvedType) (schema : Schema)
    (tpe : String) : ResolvedType :=
  match schema.exts.xOmitEmpty with
  | some b => r.withIsEmptyOmitted b
  | none => r.withIsEmptyOmitted (tpe ≠ arrayT)

/-- The document's definitions (`spec.Definitions`), as an association
list keyed by definition name. -/
abbrev Defs := List (String × Schema)

def lookupDef (defs : Defs) (name : String) : Option Schema :=
  (defs.find? (·.1 = name)).map (·.2)

/-- Insert-or-replace a definition (`sp.Definitions[name] = schema`). -/
def setDef (defs : Defs) (name : String) (schema : Schema) : Defs :=
  if defs.any (·.1 = name) then
    defs.map fun p => if p.1 = name then (name, schema) else p
  else defs ++ [(name, schema)]

/-- `spec.ResolveRef` for a canonical document: a local
`#/definitions/Name` pointer resolved against the definitions. -/
def refTarget (defs : Defs) (r : String) : Option Schema :=
  match dropPrefixChars "#/definitions/".data r.data with
  | some rest => lookupDef defs (String.mk rest)
  | none => none

/-- `typeResolver` (`types.go`).  The unexported `keepDefinitionsPkg` /
`knownDefsKept` fields are only configured by the cross-package CLI path
and stay empty during model generation; they are not modelled. -/
structure TypeResolver where
  modelsPackage : String := ""
  modelName : String := ""
  knownDefs : List String := []
deriving DecidableEq, Repr

/-- `newTypeResolver` (`types.go`). -/
def newTypeResolver (pkg : String) (defs : Defs) : TypeResolver :=
  { modelsPackage := pkg
    knownDefs := defs.map fun p => (knownDefKclType p.1 p.2 none).1 }

/-- `typeResolver.NewWithModelName` (`types.go`). -/
def TypeResolver.newWithModelName (t : TypeResolver) (defs : Defs)
    (name : String) : TypeResolver :=
  { newTypeResolver t.modelsPackage defs with modelName := name }

/-- `typeResolver.kclTypeName` (`types.go`). -/
def TypeResolver.kclTypeName (t : TypeResolver) (modelName : String) : String :=
  let escapedName := mangleModelName modelName
  if t.modelsPackage = "" then escapedName
  else if t.knownDefs.contains modelName then
    t.modelsPackage ++ "." ++ escapedName
  else escapedName

/-- `typeResolver.firstType` (`types.go`): empty or empty-string type
lists classify as `object`; the exact pair `{string, integer}` (either
order) classifies as the int-or-string pseudo type; any other list is
taken by its first entry (with only a logged warning when there is more
than one). -/
def TypeResolver.firstType (_t : TypeResolver) (schema : Schema) : String :=
  if schema.type.length = 0 ∨ schema.type.headD "" = "" then objectT
  else if schema.type.length = 2 ∧
      ((schema.type.headD "" = strT ∧ schema.type.getD 1 "" = integerT) ∨
       (schema.type.headD "" = integerT ∧ schema.type.getD 1 "" = strT)) then
    intOrStrT
  else schema.type.headD ""

/-- `typeResolver.resolveFormat` (`types.go`): `some` when the format
resolves (the Go `returns` flag); partial results built before a failed
lookup are discarded by the caller and are not modelled. -/
def TypeResolver.resolveFormat (_t : TypeResolver) (schema : Schema) :
    Option ResolvedType :=
  if schema.format ≠ "" then
    let swaggerType := match schema.type with
      | [] => strT
      | t0 :: _ => t0
    let schFmt := String.mk (schema.format.data.filter fun c => c ≠ '-')
    let kcl? := match formatMapping swaggerType schFmt with
      | some tpe => some tpe
      | none => typeMapping schFmt
    match kcl? with
    | some tpe =>
      some (((ResolvedType.default.withSwaggerType swaggerType).withKclType
        tpe).withSwaggerFormat schema.format)
    | none => none
  else none

/-- `typeResolver.resolveExtensions` (`types.go`): the
`x-kubernetes-int-or-string` flag resolves to the int-or-string union
type regardless of the declared type list. -/
def TypeResolver.resolveExtensions (_t : TypeResolver) (schema : Schema) :
    Option ResolvedType :=
  if schema.exts.xIntOrString = some true then
    let swaggerType := match schema.type with
      | [] => strT
      | t0 :: _ => t0
    some ((ResolvedType.default.withSwaggerType swaggerType).withKclType
      ((typeMapping intOrStrT).getD ""))
  else none

end KclOpenapi

namespace KclOpenapi

/-- The recursive resolution callback: `ResolveSchema` applied at the
remaining fuel.  Each Go resolver function below is modelled as a
definition taking this callback, so that the only fuel-recursive
definition is `ResolveSchema` itself (structural recursion on fuel). -/
abbrev ResolveFn := Option Schema → Bool → Bool → Except String ResolvedType

/-- `typeResolver.resolveSchemaRef` (`types.go`): `some` when the node is
a reference (the Go `returns` flag); the reference target is resolved
non-anonymously and the referencing node's kcl type information is
overlaid from the target's vendor extensions. -/
def TypeResolver.resolveSchemaRefWith (t : TypeResolver) (recFn : ResolveFn)
    (defs : Defs) (schema : Schema) (isRequired : Bool) :
    Option (Except String ResolvedType) :=
  if schema.ref = "" then none
  else some (do
    match refTarget defs schema.ref with
    | none => throw ("could not resolve reference: " ++ schema.ref)
    | some target => do
      let res ← recFn (some target) false isRequired
      let tn := refBase schema.ref
      let (tpe, pkg, pkgAlias, module) :=
        knownDefKclType tn target (some t.kclTypeName)
      let result :=
        if tpe ≠ "" then (res.withKclType tpe).withPkgInfo pkg pkgAlias module
        else res
      pure ((result.withHasDiscriminator
        res.flags.hasDiscriminator).withIsBaseType res.flags.hasDiscriminator))

/-- `typeResolver.resolveArray` (`types.go`). -/
def TypeResolver.resolveArrayWith (_t : TypeResolver) (recFn : ResolveFn)
    (schema : Schema) (_isAnonymous _isRequired : Bool) :
    Except String ResolvedType := do
  let hasAdd := match schema.additionalItems with
    | some (allows, sch) => allows || sch.isSome
    | none => false
  if ¬ schema.hasItems then
    pure (.mk { isArray := true, hasAdditionalItems := hasAdd }
      ("[" ++ anyT ++ "]") arrayT "" "" "" "" none)
  else if schema.itemsTuple.length > 0 then
    pure (.mk { isArray := false, isTuple := true, hasAdditionalItems := hasAdd }
      "" arrayT "" "" "" "" none)
  else do
    let rt ← recFn schema.itemsSingle true false
    pure (.mk { isArray := true, hasAdditionalItems := hasAdd }
      ("[" ++ rt.kclType ++ "]") arrayT "" "" "" "" (some rt))

/-- `typeResolver.resolveObject` (`types.go`). -/
def TypeResolver.resolveObjectWith (t : TypeResolver) (recFn : ResolveFn)
    (schema : Schema) (isAnonymous : Bool) : Except String ResolvedType := do
  let base : RTFlags :=
    { isAnonymous := isAnonymous, isBaseType := schema.discriminator ≠ "" }
  let r0 : ResolvedType :=
    if ¬ isAnonymous then
      let (tpe, pkg, pkgAlias, module) :=
        knownDefKclType t.modelName schema (some t.kclTypeName)
      .mk base tpe objectT "" pkg pkgAlias module none
    else .mk base "" "" "" "" "" "" none
  if ¬ schema.allOf.isEmpty then
    pure (((r0.withKclType (t.kclTypeName t.modelName)).withIsComplexObject
      true).withSwaggerType objectT)
  else
    let r1 := if ¬ schema.properties.isEmpty then r0.withIsComplexObject true else r0
    match schema.additionalProperties with
    | some (_, some sch) => do
      let et ← recFn (some sch) (sch.ref = "") false
      pure (((((r1.withIsMap (¬ r1.flags.isComplexObject)).withSwaggerType
        objectT).withKclType ("\x7bstr:" ++ et.kclType ++ "\x7d")).withElemType
        (some et)))
    | _ =>
      if ¬ schema.properties.isEmpty then pure r1
      else if isAnonymous then
        pure (((r1.withKclType anyT).withIsMap true).withSwaggerType objectT)
      else pure r1

/-- `typeResolver.ResolveSchema` (`types.go`): reference, format and
vendor-extension resolution take precedence, in that order, before
dispatch on the first declared JSON type. -/
def TypeResolver.resolveSchema (t : TypeResolver) : Nat → Defs →
    Option Schema → Bool → Bool → Except String ResolvedType
  | _, _, none, _, _ => pure (ResolvedType.default.withKclType anyT)
  | 0, _, some _, _, _ => throw "schema nesting exceeds resolution fuel"
  | fuel + 1, defs, some schema, isAnonymous, isRequired =>
    let recFn : ResolveFn := fun os a r => t.resolveSchema fuel defs os a r
    let tpe := t.firstType schema
    match t.resolveSchemaRefWith recFn defs schema isRequired with
    | some r => do
      let result ← r
      if ¬ isAnonymous then
        pure ((result.withIsMap false).withIsComplexObject true)
      else pure result
    | none =>
      let finish := fun (r : ResolvedType) => r.setIsEmptyOmitted schema tpe
      match t.resolveFormat schema with
      | some r => pure (finish r)
      | none =>
        match t.resolveExtensions schema with
        | some r => pure (finish r)
        | none =>
          if tpe = arrayT then do
            let r ← t.resolveArrayWith recFn schema isAnonymous false
            pure (finish r)
          else if tpe = numberT ∨ tpe = integerT ∨ tpe = booleanT ∨
              tpe = strT then
            pure (finish (.mk { isPrimitive := true }
              ((typeMapping tpe).getD "") tpe "" "" "" "" none))
          else if tpe = objectT then do
            let r ← t.resolveObjectWith recFn schema isAnonymous
            pure (finish (r.withHasDiscriminator (schema.discriminator ≠ "")))
          else
            throw ("unresolvable: [" ++
              String.intercalate " " schema.type ++ "] (format \"" ++
              schema.format ++ "\")")

end KclOpenapi

namespace KclOpenapi

/-- Insert-or-replace in an association list (Go map assignment). -/
def setAssoc {α : Type} (l : List (String × α)) (k : String) (v : α) :
    List (String × α) :=
  if l.any (·.1 = k) then l.map fun p => if p.1 = k then (k, v) else p
  else l ++ [(k, v)]

/-- `sharedValidations` (`model.go` types): the validation part of a
generation schema. -/
structure SharedValidations where
  hasValidations : Bool := false
  required : Bool := false
  vals : SchemaVals := {}
  enum : List EnumVal := []
  itemsEnum : List EnumVal := []
  hasSliceValidations : Bool := false
deriving DecidableEq, Repr

/-- The scalar (non-recursive) part of a `GenSchema`. -/
structure GSCore where
  name : String := ""
  originalName : String := ""
  escapedName : String := ""
  suffix : String := ""
  title : String := ""
  description : String := ""
  sv : SharedValidations := {}
  readOnly : Bool := false
  allowsAdditionalItems : Bool := false
  hasAdditionalItems : Bool := false
  hasAdditionalProperties : Bool := false
  isAdditionalProperties : Bool := false
  strictAdditionalProperties : Bool := false
  isBaseType : Bool := false
  hasBaseType : Bool := false
  isSubType : Bool := false
  isExported : Bool := false
  extensions : Exts := {}
deriving DecidableEq, Repr

/-- `GenSchema` (`model.go` types): the generated representation of one
schema.  The embedded `resolvedType` is the `rt` component, the embedded
`sharedValidations` lives inside `core.sv`; the explicit `IsBaseType` /
`HasBaseType` fields (which shadow the embedded resolved type's flag in
Go) live in `core`.  The unused `Object`, `XMLName` and `CustomTag`
fields are not modelled. -/
inductive GenSchema where
  | mk (rt : ResolvedType) (core : GSCore)
       (items : Option GenSchema)
       (additionalItems : Option GenSchema)
       (additionalProperties : Option GenSchema)
       (properties : List GenSchema)
       (allOf : List GenSchema)

def GenSchema.rt : GenSchema → ResolvedType
  | .mk r _ _ _ _ _ _ => r

def GenSchema.core : GenSchema → GSCore
  | .mk _ c _ _ _ _ _ => c

def GenSchema.items : GenSchema → Option GenSchema
  | .mk _ _ i _ _ _ _ => i

def GenSchema.additionalItems : GenSchema → Option GenSchema
  | .mk _ _ _ a _ _ _ => a

def GenSchema.additionalProperties : GenSchema → Option GenSchema
  | .mk _ _ _ _ a _ _ => a

def GenSchema.properties : GenSchema → List GenSchema
  | .mk _ _ _ _ _ p _ => p

def GenSchema.allOf : GenSchema → List GenSchema
  | .mk _ _ _ _ _ _ a => a

/-- The zero value `GenSchema{}`. -/
def GenSchema.empty : GenSchema := .mk ResolvedType.default {} none none none [] []

def GenSchema.withRT (g : GenSchema) (r : ResolvedType) : GenSchema :=
  .mk r g.core g.items g.additionalItems g.additionalProperties g.properties g.allOf

def GenSchema.withCore (g : GenSchema) (c : GSCore) : GenSchema :=
  .mk g.rt c g.items g.additionalItems g.additionalProperties g.properties g.allOf

def GenSchema.modCore (g : GenSchema) (f : GSCore → GSCore) : GenSchema :=
  g.withCore (f g.core)

def GenSchema.withItems (g : GenSchema) (i : Option GenSchema) : GenSchema :=
  .mk g.rt g.core i g.additionalItems g.additionalProperties g.properties g.allOf

def GenSchema.withAdditionalItems (g : GenSchema) (a : Option GenSchema) : GenSchema :=
  .mk g.rt g.core g.items a g.additionalProperties g.properties g.allOf

def GenSchema.withAdditionalProperties (g : GenSchema) (a : Option GenSchema) : GenSchema :=
  .mk g.rt g.core g.items g.additionalItems a g.properties g.allOf

def GenSchema.withProperties (g : GenSchema) (p : List GenSchema) : GenSchema :=
  .mk g.rt g.core g.items g.additionalItems g.additionalProperties p g.allOf

def GenSchema.withAllOf (g : GenSchema) (a : List GenSchema) : GenSchema :=
  .mk g.rt g.core g.items g.additionalItems g.additionalProperties g.properties a

def GenSchema.name (g : GenSchema) : String := g.core.name

def GenSchema.hasValidations (g : GenSchema) : Bool := g.core.sv.hasValidations

def GenSchema.required (g : GenSchema) : Bool := g.core.sv.required

/-- Lexicographic comparison of character lists by code point; UTF-8
byte order coincides with code-point order, so this models Go's `<` on
strings. -/
def charListLt : List Char → List Char → Bool
  | [], [] => false
  | [], _ :: _ => true
  | _ :: _, [] => false
  | a :: as, b :: bs =>
    if a.toNat < b.toNat then true
    else if b.toNat < a.toNat then false
    else charListLt as bs

/-- Go's `<` on strings. -/
def strLt (a b : String) : Bool := charListLt a.data b.data

/-- `GenSchemaList.Less` (`model.go` types): order by the `x-order`
extension when present (entries carrying `x-order` sort before entries
without it), otherwise lexicographically by name. -/
def genLess (a b : GenSchema) : Bool :=
  match a.core.extensions.xOrder, b.core.extensions.xOrder with
  | some x, some y => x < y
  | some _, none => true
  | none, some _ => false
  | none, none => strLt a.core.name b.core.name

/-- The non-strict order associated with `genLess`; Go's `sort.Sort`
guarantees its output is pairwise ordered by this relation. -/
def genLE (a b : GenSchema) : Prop := genLess b a = false

instance : DecidableRel genLE := fun a b =>
  inferInstanceAs (Decidable (genLess b a = false))

/-- The `sort.Sort(sg.GenSchema.Properties)` call of `buildProperties`,
modelled as an insertion sort by `GenSchemaList.Less`.  Go's sort is a
different (unstable) algorithm, but on property lists with pairwise
distinct keys the ordered permutation is unique, which the ordering
theorems establish by quantifying over every possible input order. -/
def sortGenSchemas (l : List GenSchema) : List GenSchema :=
  l.insertionSort genLE

/-- The scalar enum kinds of `pruneEnums`'s type switch
(`bool`, `string`, `int`, `float64`, `float32`). -/
def enumScalar : EnumVal → Bool
  | .vBool _ => true
  | .vStr _ => true
  | .vNum _ => true
  | _ => false

/-- `sharedValidations.pruneEnums` (`model.go` part): drops a nil enum
entry with a warning (second component `true`), keeps scalar entries in
order, and fails fatally on a structurally complex entry. -/
def pruneEnums (modelName : String) (enum : List EnumVal) :
    Except String (List EnumVal × Bool) :=
  if enum.isEmpty then pure (enum, false)
  else
    let newEnums := enum.filter enumScalar
    let containsNil := enum.contains .vNull
    let containsComplex := enum.contains .vComplex
    if containsComplex then
      throw ("enum values in model <" ++ modelName ++
        "> contains complex value type which is forbidden in KCL")
    else if containsNil then pure (newEnums, true)
    else pure (enum, false)

/-- `hasSliceValidations` (`model.go`). -/
def hasSliceValidationsS (model : Schema) : Bool :=
  model.vals.maxItems.isSome || model.vals.minItems.isSome ||
    model.vals.uniqueItems

/-- `hasValidations` (`model.go`). -/
def hasValidationsS (model : Schema) : Bool :=
  let hasNumberValidation := model.vals.maximum.isSome ||
    model.vals.minimum.isSome || model.vals.multipleOf.isSome
  let hasStringValidation := model.vals.maxLength.isSome ||
    model.vals.minLength.isSome || model.vals.pattern ≠ ""
  hasNumberValidation || hasStringValidation || hasSliceValidationsS model

/-- `handleFormatConflicts` (`model.go`). -/
def handleFormatConflicts (model : Schema) : Schema :=
  if model.format = "date" ∨ model.format = "datetime" ∨
      model.format = "uuid" ∨ model.format = "bsonobjectid" ∨
      model.format = "base64" ∨ model.format = "duration" then
    model.withCore { model.core with
      vals := { model.core.vals with
        minLength := none, maxLength := none, pattern := "" } }
  else model

/-- `sharedValidationsFromSchema` (`support` part): copies the validation
constraints and prunes the enum list. -/
def sharedValidationsFromSchema (v : Schema) (modelName : String) :
    Except String SharedValidations := do
  let sh : SharedValidations := { vals := v.vals, enum := v.enum }
  let (enum, _warned) ← pruneEnums modelName sh.enum
  pure { sh with enum := enum }

end KclOpenapi

namespace KclOpenapi

/-- `schemaGenContext` (`model.go`).  Renderer-only string bookkeeping
(`ValueExpr`, `Receiver`, `Accessor`, `ParamName`) is not modelled;
`path`, `indexVar` and `keyVar` are kept because generated names and
error messages use them.  `Discrimination` is modelled by the two lists
of registered reference strings (only membership is consulted during
schema generation). -/
structure Ctx where
  required : Bool := false
  additionalProperty : Bool := false
  named : Bool := false
  refHandled : Bool := false
  isVirtual : Bool := false
  isTuple : Bool := false
  strictAdditionalProperties : Bool := false
  keepOrder : Bool := false
  index : Nat := 0
  path : String := ""
  name : String := ""
  indexVar : String := ""
  keyVar : String := ""
  container : String := ""
  schema : Schema := Schema.empty
  resolver : TypeResolver := {}
  genSchema : GenSchema := GenSchema.empty
  dependencies : List String := []
  extraSchemas : List (String × GenSchema) := []
  discriminators : List String := []
  discriminated : List String := []

/-- `kclName` (`model.go`): the `x-kcl-name` extension when non-empty,
else the original name. -/
def kclNameOf (sch : Schema) (orig : String) : String :=
  match sch.exts.xKclName with
  | some n => if n ≠ "" then n else orig
  | none => orig

/-- `schemaGenContext.KclName` (`model.go`). -/
def Ctx.kclName (sg : Ctx) : String := kclNameOf sg.schema sg.name

/-- `schemaGenContext.shallowClone` (`model.go`): copies the context,
defaults the container to the parent name, and resets the accumulation
fields.  Go copies the `ExtraSchemas` map by reference; the model copies
it by value, which agrees with Go on every path because each child is
merged back into its parent (`MergeResult` re-unions the extras). -/
def Ctx.shallowClone (sg : Ctx) : Ctx :=
  { sg with
    container := if sg.container = "" then sg.name else sg.container
    genSchema := GenSchema.empty
    dependencies := []
    named := false
    index := 0
    isTuple := false }

/-- `schemaGenContext.NewSchemaBranch` (`model.go`): the child context
for a named property. -/
def Ctx.newSchemaBranch (sg : Ctx) (name : String) (schema : Schema) : Ctx :=
  let pg := sg.shallowClone
  let pg := { pg with
    path := if sg.path = "" then name else pg.path ++ "." ++ name
    name := name
    schema := schema }
  let pg := if sg.schema.requiredNames.contains name then
    { pg with required := true } else pg
  if pg.schema.core.hasDefault ∧ pg.schema.core.readOnly then
    { pg with required := true }
  else pg

/-- `schemaGenContext.NewCompositionBranch` (`model.go`): the child
context for one allOf branch. -/
def Ctx.newCompositionBranch (sg : Ctx) (schema : Schema) (index : Nat) : Ctx :=
  let pg := sg.shallowClone
  let nm := "AO" ++ toString index
  { pg with
    schema := schema
    name := if sg.name ≠ sg.resolver.modelName then sg.name ++ nm else nm
    index := index }

/-- `schemaGenContext.NewAdditionalProperty` (`model.go`): the child
context for a map value. -/
def Ctx.newAdditionalProperty (sg : Ctx) (schema : Schema) : Ctx :=
  let pg := sg.shallowClone
  let keyVar := pg.keyVar ++ "k"
  { pg with
    schema := schema
    keyVar := keyVar
    path := if sg.path ≠ "" then sg.path ++ "." ++ keyVar else keyVar
    genSchema := pg.genSchema.modCore fun c => { c with suffix := "Value" } }

/-- `schemaGenContext.NewTupleElement` (`model.go`). -/
def Ctx.newTupleElement (sg : Ctx) (schema : Schema) (index : Nat) : Ctx :=
  let pg := sg.shallowClone
  { pg with
    path := if pg.path = "" then toString index else pg.path ++ "." ++ toString index
    required := true
    isTuple := true
    schema := schema }

/-- `schemaGenContext.NewAdditionalItems` (`model.go`). -/
def Ctx.newAdditionalItems (sg : Ctx) (schema : Option Schema) : Ctx :=
  let pg := sg.shallowClone
  let indexVar := pg.indexVar
  let itemsLen := if sg.schema.hasItems then
      (if sg.schema.itemsSingle.isSome then 1 else sg.schema.itemsTuple.length)
    else 0
  let mod := if itemsLen > 0 then "+" ++ toString itemsLen else ""
  { pg with
    name := sg.name ++ " items"
    path := if pg.path = "" then "(" ++ indexVar ++ mod ++ ")"
      else pg.path ++ ".(" ++ indexVar ++ mod ++ ")"
    schema := schema.getD Schema.empty
    required := false }

/-- `schemaGenContext.NewArrayBranch` (`model.go`): the child context for
the items of an array.  The Go function also dereferences the parent's
resolved element type to propagate its discriminator flag onto the
parent, so the (possibly updated) parent is returned alongside the
child; a nil element type would be a Go panic, modelled as an error. -/
def Ctx.newArrayBranch (sg : Ctx) (schema : Schema) :
    Except String (Ctx × Ctx) := do
  let pg := sg.shallowClone
  let indexVar := pg.indexVar
  let pg := { pg with
    path := if pg.path = "" then indexVar else pg.path ++ "." ++ indexVar }
  let elemBase ← match sg.genSchema.rt.elemType with
    | some e => pure e.flags.hasDiscriminator
    | none => throw "nil pointer dereference: ElemType"
  let sg' := { sg with
    genSchema := sg.genSchema.modCore fun c => { c with isBaseType := elemBase } }
  let pg := { pg with
    indexVar := indexVar ++ "i"
    schema := schema
    required := false }
  pure (sg', pg)

/-- `mergeValidation` (`model.go`): whether the child context carries a
validation-presence flag, directly or on its additionalProperties,
additionalItems or allOf branches. -/
def mergeValidation (other : Ctx) : Bool :=
  (match other.genSchema.additionalProperties with
   | some ap => ap.core.sv.hasValidations
   | none => false) ||
  (match other.genSchema.additionalItems with
   | some ai => ai.core.sv.hasValidations
   | none => false) ||
  other.genSchema.allOf.any (·.core.sv.hasValidations) ||
  other.genSchema.core.sv.hasValidations

/-- `schemaGenContext.MergeResult` (`model.go`): merge a child context
into the parent.  Validation presence, dependencies and extra schemas
propagate unconditionally; the required flag (of the child or of its
additionalProperties) only when `liftsRequired`; `HasBaseType`
propagates unconditionally. -/
def Ctx.mergeResult (sg other : Ctx) (liftsRequired : Bool) : Ctx :=
  let g := sg.genSchema.modCore fun c =>
    { c with sv := { c.sv with
        hasValidations := c.sv.hasValidations || mergeValidation other } }
  let g := if liftsRequired &&
      (match other.genSchema.additionalProperties with
       | some ap => ap.core.sv.required
       | none => false) then
    g.modCore fun c => { c with sv := { c.sv with required := true } }
  else g
  let g := if liftsRequired && other.genSchema.core.sv.required then
    g.modCore fun c => { c with sv := { c.sv with required := true } }
  else g
  let g := if other.genSchema.core.hasBaseType then
    g.modCore fun c => { c with hasBaseType := true }
  else g
  { sg with
    genSchema := g
    dependencies := sg.dependencies ++ other.dependencies
    extraSchemas := other.extraSchemas.foldl
      (fun acc p => setAssoc acc p.1 p.2) sg.extraSchemas }

/-- `schemaGenContext.makeNewSchema` (`model.go`): mint a new named
definition (hoisting), inserting it into the document's definitions and
pre-registering it in the parent's extra schemas.  Returns the updated
parent, the fresh child context and the updated definitions.  When the
new schema is a reference Go leaves the child's resolver nil (never
exercised); the model keeps the parent's resolver in that case. -/
def Ctx.makeNewSchema (sg : Ctx) (defs : Defs) (name : String)
    (schema : Schema) : Ctx × Ctx × Defs :=
  let name := toGoName name
  let name := if sg.resolver.modelName ≠ sg.name then
      toGoName (sg.resolver.modelName ++ " " ++ name)
    else name
  let defs' := setDef defs name schema
  let pg : Ctx :=
    { path := ""
      name := name
      indexVar := "i"
      schema := schema
      required := false
      named := true
      extraSchemas := []
      discriminators := sg.discriminators
      discriminated := sg.discriminated
      container := sg.container
      strictAdditionalProperties := sg.strictAdditionalProperties
      keepOrder := sg.keepOrder
      resolver := if schema.ref = "" then
          sg.resolver.newWithModelName defs' name
        else sg.resolver }
  ({ sg with extraSchemas := setAssoc sg.extraSchemas name pg.genSchema },
    pg, defs')

/-- `schemaGenContext.schemaValidations` (`model.go`). -/
def Ctx.schemaValidations (sg : Ctx) : Except String SharedValidations := do
  let model := handleFormatConflicts sg.schema
  let modelName := if sg.container ≠ "" then sg.container ++ "." ++ sg.path
    else sg.path
  let s ← sharedValidationsFromSchema model modelName
  pure { s with
    hasValidations := hasValidationsS model
    hasSliceValidations := hasSliceValidationsS model }

end KclOpenapi

namespace KclOpenapi

/-- Whether an allOf entry is counted by `liftSpecialAllOf`'s scan: it
declares a type, properties, a reference, or a nested allOf. -/
def liftCounted (sch : Schema) : Bool :=
  sch.type.length > 0 || sch.properties.length > 0 || sch.ref ≠ "" ||
    sch.allOf.length > 0

/-- Whether an allOf entry qualifies as the lift candidate in
`liftSpecialAllOf`: it resolves to a non-anonymous complex object or to
a primitive type. -/
def liftCandidate (tpe : ResolvedType) : Bool :=
  (!tpe.flags.isAnonymous && tpe.flags.isComplexObject) || tpe.flags.isPrimitive

/-- The scanning loop of `liftSpecialAllOf` (`model.go`): returns the
number of counted entries (stopping as soon as a second one is found)
and the schema to lift (the zero schema when the single counted entry is
not a lift candidate). -/
def liftScan (t : TypeResolver) (fuel : Nat) (defs : Defs) :
    List Schema → Nat → Schema → Except String (Nat × Schema)
  | [], seen, toLift => pure (seen, toLift)
  | sch :: rest, seen, toLift => do
    let tpe ← t.resolveSchema fuel defs (some sch) true true
    if liftCounted sch then
      let seen' := seen + 1
      if seen' > 1 then pure (seen', toLift)
      else
        let toLift' := if liftCandidate tpe then sch else toLift
        liftScan t fuel defs rest seen' toLift'
    else liftScan t fuel defs rest seen toLift

/-- `schemaGenContext.liftSpecialAllOf` (`model.go`): with two or more
allOf entries, scan them; when exactly one entry is counted, replace the
whole schema by the recorded lift candidate. -/
def Ctx.liftSpecialAllOf (sg : Ctx) (fuel : Nat) (defs : Defs) :
    Except String Ctx := do
  if sg.schema.allOf.length < 2 then return sg
  let (seen, toLift) ←
    liftScan sg.resolver fuel defs sg.schema.allOf 0 Schema.empty
  if seen = 1 then return { sg with schema := toLift }
  else return sg

/-- The verdict of the external go-openapi `analysis.Schema` helper on a
schema node, as consumed by the generator. -/
structure AnalyzedSchema where
  isArray : Bool := false
  isMap : Bool := false
  isKnownType : Bool := false
  isBaseType : Bool := false
  isSimpleSchema : Bool := false
deriving DecidableEq, Repr

/-- The external analyzer collaborator (`analysis.Schema` with the
current document as root), supplied as a parameter to the engine. -/
abbrev Analyzer := Defs → Schema → AnalyzedSchema

end KclOpenapi

namespace KclOpenapi

/-- One level of the additional-properties `mapStack` (`model.go`). -/
structure MapLevel where
  typeSchema : Schema
  ctx : Ctx
  newObj : Option Ctx := none
  valueRef : Option Ctx := none

/-- `mapStack.HasMore` (`model.go`). -/
def hasMoreMS (s : Schema) : Bool :=
  match s.additionalProperties with
  | some (allows, sch) => sch.isSome || allows
  | none => false

/-- `newMapStack` (`model.go`): descend through nested
additionalProperties levels; when the bottom value is an anonymous
complex object, hoist it to a new definition and rewrite the bottom
additionalProperties to a reference.  Go performs the rewrite through
shared schema pointers; the model rebuilds each level's schema on the
way back up, which yields the same levels.  Returns the levels (top
first), the possibly-rewritten top schema, and the updated definitions. -/
def mapStackDescend (fuel : Nat) (defs : Defs) (ctx : Ctx)
    (typeSchema : Schema) : Except String (List MapLevel × Schema × Defs) :=
  match fuel with
  | 0 => throw "additionalProperties nesting exceeds fuel"
  | fuel + 1 =>
    if ¬ hasMoreMS typeSchema then
      pure ([{ typeSchema := typeSchema, ctx := ctx }], typeSchema, defs)
    else do
      let apPair := typeSchema.additionalProperties.getD (false, none)
      let tpe ← ctx.resolver.resolveSchema fuel defs apPair.2 true true
      if ¬ tpe.flags.isMap then
        if tpe.flags.isComplexObject ∧ tpe.flags.isAnonymous then
          match apPair.2 with
          | none => throw "nil pointer dereference: AdditionalProperties.Schema"
          | some apSch => do
            let (ctx', nw, defs') :=
              ctx.makeNewSchema defs (ctx.name ++ " Anon") apSch
            let sch := refProperty ("#/definitions/" ++ nw.name)
            let ts' := typeSchema.withAdditionalProperties
              (some (apPair.1, some sch))
            let ctx'' := { ctx' with schema := ts' }
            let valueRef := ctx''.newAdditionalProperty sch
            pure ([{ typeSchema := ts', ctx := ctx'',
                     newObj := some nw, valueRef := some valueRef }], ts', defs')
        else
          pure ([{ typeSchema := typeSchema, ctx := ctx }], typeSchema, defs)
      else
        match apPair.2 with
        | none => throw "nil pointer dereference: AdditionalProperties.Schema"
        | some child => do
          let childCtx := ctx.newAdditionalProperty child
          let (sub, child', defs') ← mapStackDescend fuel defs childCtx child
          let ts' := typeSchema.withAdditionalProperties
            (some (apPair.1, some child'))
          pure ({ typeSchema := ts', ctx := { ctx with schema := ts' } } :: sub,
            ts', defs')

end KclOpenapi

namespace KclOpenapi

/-- `resolveRef` chain following in `buildProperties`
(`model.go`): expand a property reference to its first non-reference
target. -/
def resolveRefChain (fuel : Nat) (defs : Defs) (r : String) :
    Except String Schema :=
  match fuel with
  | 0 => throw "reference chain exceeds fuel"
  | fuel + 1 =>
    match refTarget defs r with
    | none => throw ("could not resolve reference: " ++ r)
    | some rsch =>
      if rsch.ref ≠ "" then resolveRefChain fuel defs rsch.ref
      else pure rsch

/-- The engine recursion callback: `makeGenSchema` applied at the
remaining fuel.  Each Go engine function below is modelled as a
definition taking this callback, so that the only fuel-recursive
definition is `makeGenSchema` itself (structural recursion on fuel). -/
abbrev EngineFn := Defs → Ctx → Except String (Ctx × Defs)

/-- `schemaGenContext.shortCircuitNamedRef` (`model.go`): a named
context whose body is a bare reference either realiases a simple or
polymorphic target (no composition), or becomes a single-branch allOf
composition. -/
def shortCircuitNamedRefWith (an : Analyzer) (fuel : Nat) (mgs : EngineFn)
    (defs : Defs) (sg : Ctx) : Except String (Bool × Ctx × Defs) := do
    if sg.refHandled ∨ ¬ sg.named ∨ sg.schema.ref = "" then
      return (false, sg, defs)
    let asch := an defs sg.schema
    if asch.isArray || asch.isMap || asch.isKnownType || asch.isBaseType then do
      let tpx ← sg.resolver.resolveSchema fuel defs (some sg.schema) false true
      let tpe : ResolvedType := .mk
        { isMap := asch.isMap
          isArray := asch.isArray
          isPrimitive := asch.isKnownType
          isComplexObject := false
          isAnonymous := false
          isBaseType := tpx.flags.isBaseType }
        (sg.resolver.kclTypeName (pathBase sg.schema.ref))
        tpx.swaggerType "" "" "" "" none
      let (sg, pg, defs) := sg.makeNewSchema defs sg.name Schema.empty
      let (pg, defs) ← mgs defs pg
      let sg := sg.mergeResult pg true
      let g := (pg.genSchema.withRT tpe).modCore fun c =>
        { c with isBaseType := tpe.flags.isBaseType }
      return (true, { sg with genSchema := g }, defs)
    else do
      let tpe : ResolvedType := .mk
        { isComplexObject := true, isMap := false, isArray := false,
          isAnonymous := false }
        (sg.resolver.kclTypeName sg.name) objectT "" "" "" "" none
      let item := sg.newCompositionBranch sg.schema 0
      let (item, defs) ← mgs defs item
      let sg := { sg with genSchema := sg.genSchema.withRT tpe }
      let sg := sg.mergeResult item true
      let sg := { sg with genSchema :=
        sg.genSchema.withAllOf (sg.genSchema.allOf ++ [item.genSchema]) }
      return (true, sg, defs)

/-- The branch loop of `buildAllOf`. -/
def buildAllOfLoopWith (an : Analyzer) (fuel : Nat) (mgs : EngineFn)
    (defs : Defs) (sg : Ctx) (i : Nat) :
    List Schema → Except String (Ctx × Defs)
  | [] => pure (sg, defs)
  | sch :: rest => do
      let tpe ← sg.resolver.resolveSchema fuel defs (some sch)
        (sch.ref = "") false
      if (tpe.flags.isAnonymous ∧ sch.allOf.length > 0) ∨
          (sch.ref = "" ∧ ¬ tpe.flags.isComplexObject ∧
            (tpe.flags.isArray ∨ tpe.flags.isPrimitive)) then do
        let name := toVarName (kclNameOf sch (sg.name ++ "AllOf" ++ toString i))
        let (sg, ng, defs) := sg.makeNewSchema defs name sch
        let (ng, defs) ← mgs defs ng
        let newsch := refProperty ("#/definitions/" ++ ng.name)
        let sg := { sg with schema :=
          sg.schema.withAllOf (sg.schema.allOf.set i newsch) }
        let pg := sg.newCompositionBranch newsch i
        let (pg, defs) ← mgs defs pg
        let pg := pg.mergeResult ng true
        let pg := { pg with extraSchemas := setAssoc pg.extraSchemas ng.name ng.genSchema }
        let sg := sg.mergeResult pg true
        let sg := { sg with genSchema :=
          sg.genSchema.withAllOf (sg.genSchema.allOf ++ [pg.genSchema]) }
        buildAllOfLoopWith an fuel mgs defs sg (i + 1) rest
      else do
        let comprop := sg.newCompositionBranch sch i
        let (comprop, defs) ← mgs defs comprop
        let sg := sg.mergeResult comprop true
        let sg := { sg with genSchema :=
          sg.genSchema.withAllOf (sg.genSchema.allOf ++ [comprop.genSchema]) }
        buildAllOfLoopWith an fuel mgs defs sg (i + 1) rest

/-- `schemaGenContext.buildAllOf` (`model.go`).  The conflicting-array
warning is log-only and not modelled; the initial `sort.Sort` call sorts
the still-empty AllOf list and is a no-op. -/
def buildAllOfWith (an : Analyzer) (fuel : Nat) (mgs : EngineFn)
    (defs : Defs) (sg : Ctx) : Except String (Ctx × Defs) := do
    if sg.schema.allOf.isEmpty then return (sg, defs)
    let sg := if sg.container = "" then { sg with container := sg.name } else sg
    buildAllOfLoopWith an fuel mgs defs sg 0 sg.schema.allOf

/-- The property loop of `buildProperties`: one iteration per declared
property, in the (nondeterministic) iteration order of the properties
map — modelled by the stored list order. -/
def buildPropertiesLoopWith (an : Analyzer) (fuel : Nat) (mgs : EngineFn)
    (defs : Defs) (sg : Ctx) :
    List (String × Schema) → Except String (Ctx × Defs)
  | [] => pure (sg, defs)
  | (k, v) :: rest => do
      let tpe ← sg.resolver.resolveSchema fuel defs (some v) true
        (sg.isTuple || sg.schema.requiredNames.contains k)
      let (sg, vv, defs) ←
        if tpe.flags.isComplexObject ∧ tpe.flags.isAnonymous ∧
            v.properties.length > 0 then do
          let (sg, pg, defs) := sg.makeNewSchema defs (sg.name ++ toGoName k) v
          let pg := { pg with
            isTuple := sg.isTuple
            path := if sg.path = "" then k else pg.path ++ "." ++ k }
          let (pg, defs) ← mgs defs pg
          let pg :=
            if v.discriminator ≠ "" then
              { pg with genSchema := pg.genSchema.modCore fun c =>
                { c with
                  isBaseType := true
                  isExported := true
                  hasBaseType := true } }
            else pg
          let vv := refProperty ("#/definitions/" ++ pg.name)
          let sg := { sg with extraSchemas := setAssoc sg.extraSchemas pg.name pg.genSchema }
          let sg := sg.mergeResult pg false
          pure (sg, vv, defs)
        else pure (sg, v, defs)
      let emprop := { sg.newSchemaBranch k vv with isTuple := sg.isTuple }
      let (emprop, defs) ← mgs defs emprop
      let emprop ←
        if emprop.schema.ref ≠ "" then do
          let sch ← resolveRefChain fuel defs emprop.schema.ref
          let emprop :=
            if emprop.discriminators.contains emprop.schema.ref then
              { emprop with genSchema := emprop.genSchema.modCore fun c =>
                { c with
                  isBaseType := true
                  hasBaseType := true } }
            else emprop
          let emprop :=
            if emprop.discriminated.contains emprop.schema.ref then
              { emprop with genSchema := emprop.genSchema.modCore fun c =>
                { c with isSubType := true } }
            else emprop
          let nm := refBase emprop.schema.ref
          let tr := sg.resolver.newWithModelName defs
            (kclNameOf emprop.schema (toGoName nm))
          let _ ← tr.resolveSchema fuel defs (some sch) false true
          let emprop :=
            if hasValidationsS sch then
              { emprop with genSchema := emprop.genSchema.modCore fun c =>
                { c with sv := { c.sv with hasValidations := true } } }
            else emprop
          pure emprop
        else pure emprop
      let sg :=
        if emprop.genSchema.core.isBaseType then
          { sg with genSchema := sg.genSchema.modCore fun c =>
            { c with hasBaseType := true } }
        else sg
      let sg := sg.mergeResult emprop false
      let empropGen := emprop.genSchema.modCore fun c =>
        { c with extensions := emprop.schema.exts }
      let sg := { sg with genSchema :=
        sg.genSchema.withProperties (sg.genSchema.properties ++ [empropGen]) }
      buildPropertiesLoopWith an fuel mgs defs sg rest

/-- `schemaGenContext.buildProperties` (`model.go`). -/
def buildPropertiesWith (an : Analyzer) (fuel : Nat) (mgs : EngineFn)
    (defs : Defs) (sg : Ctx) : Except String (Ctx × Defs) := do
    let (sg, defs) ← buildPropertiesLoopWith an fuel mgs defs sg sg.schema.properties
    let sg := { sg with genSchema :=
      sg.genSchema.withProperties (sortGenSchemas sg.genSchema.properties) }
    return (sg, defs)

/-- `mapStack.Build` (`model.go`), rewinding the levels bottom-up.  The
first component is the Go quirk of a swallowed value-ref build error
(`return nil`), which aborts the rewind reporting success. -/
def buildMapLevelsWith (an : Analyzer) (fuel : Nat) (mgs : EngineFn)
    (defs : Defs) (isTop : Bool) :
    List MapLevel → Except String (Bool × Option Ctx × Defs)
  | [] => pure (false, none, defs)
  | cur :: deeper => do
      let (abort, next?, defs) ← buildMapLevelsWith an fuel mgs defs false deeper
      if abort then return (true, some cur.ctx, defs)
      let (newObj?, defs) ←
        match cur.newObj with
        | some nw => do
          let (nw, defs) ← mgs defs nw
          pure (some nw, defs)
        | none => pure (none, defs)
      let vrBuilt :=
        match cur.valueRef with
        | some vr => some (mgs defs vr)
        | none => none
      match vrBuilt with
      | some (.error _) => return (true, some cur.ctx, defs)
      | _ => do
        let (vr?, defs) :=
          match vrBuilt with
          | some (.ok (vr, d)) => (some vr, d)
          | _ => (none, defs)
        let (ctx, defs) ←
          match newObj? with
          | some nw => do
            let merged := cur.ctx.mergeResult nw false
            let merged := { merged with
              extraSchemas := setAssoc merged.extraSchemas nw.name nw.genSchema }
            pure (merged, defs)
          | none => pure (cur.ctx, defs)
        let (ctx, vr?, defs) ←
          match vr? with
          | some vr => do
            let (ctx, defs) ← mgs defs ctx
            let nwGen ← match newObj? with
              | some nw => pure nw.genSchema
              | none => throw "nil pointer dereference: NewObj"
            let vr := { vr with genSchema := vr.genSchema.modCore fun c =>
              { c with sv := { c.sv with
                  hasValidations := nwGen.hasValidations } } }
            let ctx := ctx.mergeResult vr false
            let ctx := { ctx with genSchema :=
              ctx.genSchema.withAdditionalProperties (some vr.genSchema) }
            pure (ctx, some vr, defs)
          | none => pure (ctx, none, defs)
        let (ctx, defs) ←
          if ¬ isTop then mgs defs ctx
          else pure (ctx, defs)
        let ctx ←
          match next? with
          | some next => do
            let merged := ctx.mergeResult next false
            let g := merged.genSchema.withAdditionalProperties
              (some next.genSchema)
            pure { merged with genSchema := g }
          | none => pure ctx
        let ctx ←
          match vr? with
          | some vr => do
            let merged := ctx.mergeResult vr false
            let g := merged.genSchema.withAdditionalProperties
              (some vr.genSchema)
            pure { merged with genSchema := g }
          | none => pure ctx
        return (false, some ctx, defs)

/-- `schemaGenContext.buildAdditionalProperties` (`model.go`). -/
def buildAdditionalPropertiesWith (an : Analyzer) (fuel : Nat)
    (mgs : EngineFn) (defs : Defs) (sg : Ctx) : Except String (Ctx × Defs) := do
    match sg.schema.additionalProperties with
    | none => return (sg, defs)
    | some (allows, apSch) => do
      let wantsAdditional := apSch.isSome || allows
      let sg := { sg with genSchema := sg.genSchema.modCore fun c =>
        { c with hasAdditionalProperties := wantsAdditional } }
      if ¬ wantsAdditional then return (sg, defs)
      let sg :=
        if sg.genSchema.rt.flags.isComplexObject then
          { sg with genSchema :=
            ((sg.genSchema.withRT
              ((sg.genSchema.rt.withIsComplexObject false).withIsMap
                false)).modCore fun c =>
              { c with isAdditionalProperties := true }) }
        else sg
      match apSch with
      | none =>
        if allows then do
          let addpSchema := Schema.empty.withCore { type := [objectT] }
          let sg := { sg with genSchema :=
            ((sg.genSchema.withRT
              ((sg.genSchema.rt.withIsComplexObject false).withIsMap
                true)).modCore fun c =>
              { c with hasAdditionalProperties := true }) }
          let cp := sg.newAdditionalProperty addpSchema
          let cp := { cp with
            name := cp.name ++ "AdditionalProperties"
            required := false }
          let (cp, defs) ← mgs defs cp
          let sg := sg.mergeResult cp false
          let sg := { sg with genSchema :=
            sg.genSchema.withAdditionalProperties (some cp.genSchema) }
          return (sg, defs)
        else return (sg, defs)
      | some val =>
        if ¬ sg.genSchema.rt.flags.isMap ∧
            (sg.genSchema.core.isAdditionalProperties ∧ sg.named) then do
          let tpe ← sg.resolver.resolveSchema fuel defs (some val)
            (val.ref = "") false
          if tpe.flags.isComplexObject ∧ tpe.flags.isAnonymous then do
            let (sg, pg, defs) := sg.makeNewSchema defs (sg.name ++ " Anon") val
            let (pg, defs) ← mgs defs pg
            let sg := sg.mergeResult pg false
            let sg := { sg with extraSchemas := setAssoc sg.extraSchemas pg.name pg.genSchema }
            let refSch := refProperty ("#/definitions/" ++ pg.name)
            let newSch := sg.schema.withAdditionalProperties
              (some (allows, some refSch))
            let sg := { sg with schema := newSch, isVirtual := true }
            let comprop := sg.newAdditionalProperty refSch
            let (comprop, defs) ← mgs defs comprop
            let compropGen := comprop.genSchema.modCore fun c =>
              { c with sv := { c.sv with
                  required := true, hasValidations := true } }
            let comprop := { comprop with genSchema := compropGen }
            let apGen := (sg.genSchema.withAdditionalProperties
              (some comprop.genSchema)).modCore fun c =>
              { c with hasAdditionalProperties := true }
            let sg := { sg with genSchema := apGen }
            let sg := sg.mergeResult comprop false
            return (sg, defs)
          else do
            let comprop := sg.newAdditionalProperty val
            let asch := an defs val
            let comprop := { comprop with
              required := !asch.isSimpleSchema && !asch.isMap }
            let (comprop, defs) ← mgs defs comprop
            let sg := sg.mergeResult comprop false
            let sg := { sg with genSchema :=
              sg.genSchema.withAdditionalProperties (some comprop.genSchema) }
            return (sg, defs)
        else if sg.genSchema.rt.flags.isMap ∧ wantsAdditional then do
          let (levels, _ts, defs) ← mapStackDescend fuel defs sg sg.schema
          match levels with
          | [l] =>
            if l.newObj.isNone ∧ l.valueRef.isNone then do
              match l.ctx.schema.additionalProperties.bind (·.2) with
              | none => throw "nil pointer dereference: AdditionalProperties.Schema"
              | some csch => do
                let cp := l.ctx.newAdditionalProperty csch
                let asch := an defs csch
                let cp := { cp with
                  required := !asch.isSimpleSchema && !asch.isMap }
                let (cp, defs) ← mgs defs cp
                let ctx := l.ctx.mergeResult cp false
                let ctx := { ctx with genSchema :=
                  ctx.genSchema.withAdditionalProperties (some cp.genSchema) }
                return (ctx, defs)
            else do
              let (_abort, top?, defs) ←
                buildMapLevelsWith an fuel mgs defs true levels
              return (top?.getD sg, defs)
          | _ => do
            let (_abort, top?, defs) ← buildMapLevelsWith an fuel mgs defs true levels
            return (top?.getD sg, defs)
        else if sg.genSchema.core.isAdditionalProperties ∧ ¬ sg.named then do
          let (sg, newObj, defs) := sg.makeNewSchema defs
            (sg.genSchema.core.name ++ " P" ++ toString sg.index) sg.schema
          let (newObj, defs) ← mgs defs newObj
          let sg := { sg with
            genSchema := GenSchema.empty
            schema := refProperty ("#/definitions/" ++ newObj.name) }
          let (sg, defs) ← mgs defs sg
          let sg := sg.mergeResult newObj false
          let sg := { sg with genSchema := sg.genSchema.modCore fun c =>
            { c with sv := { c.sv with
                hasValidations := newObj.genSchema.hasValidations } } }
          let sg := { sg with extraSchemas := setAssoc sg.extraSchemas newObj.name newObj.genSchema }
          return (sg, defs)
        else return (sg, defs)

/-- `schemaGenContext.buildArray` (`model.go`). -/
def buildArrayWith (_an : Analyzer) (fuel : Nat) (mgs : EngineFn)
    (defs : Defs) (sg : Ctx) : Except String (Ctx × Defs) := do
    let tpe ← sg.resolver.resolveSchema fuel defs sg.schema.itemsSingle
      true false
    match sg.schema.itemsSingle with
    | none => throw "nil pointer dereference: Items.Schema"
    | some itemSchema =>
      if tpe.flags.isComplexObject ∧ tpe.flags.isAnonymous then do
        let (sg, pg, defs) := sg.makeNewSchema defs
          (sg.name ++ " items" ++ toString sg.index) itemSchema
        let (pg, defs) ← mgs defs pg
        let sg := sg.mergeResult pg false
        let sg := { sg with extraSchemas := setAssoc sg.extraSchemas pg.name pg.genSchema }
        let sg := { sg with
          schema := Schema.mk sg.schema.core sg.schema.properties
            sg.schema.hasItems
            (some (refProperty ("#/definitions/" ++ pg.name)))
            sg.schema.itemsTuple sg.schema.additionalProperties
            sg.schema.additionalItems sg.schema.allOf
          isVirtual := true }
        mgs defs sg
      else do
        let (sg, elProp) ← sg.newArrayBranch itemSchema
        let (elProp, defs) ← mgs defs elProp
        let sg := sg.mergeResult elProp false
        let sg := { sg with genSchema := sg.genSchema.modCore fun c =>
          { c with
            isBaseType := elProp.genSchema.core.isBaseType
            sv := { c.sv with itemsEnum := elProp.genSchema.core.sv.enum } } }
        let elGen := elProp.genSchema.modCore fun c => { c with suffix := "Items" }
        let arrRT := (sg.genSchema.rt.withKclType
          ("[" ++ elGen.rt.kclType ++ "]")).withFlags
          { sg.genSchema.rt.flags with isArray := true }
        let sg := { sg with genSchema := sg.genSchema.withRT arrRT }
        let schemaCopy := elGen.modCore fun c =>
          { c with sv := { c.sv with
              required := false
              hasValidations := hasValidationsS itemSchema } }
        let sg := { sg with genSchema := sg.genSchema.modCore fun c =>
          { c with sv := { c.sv with
              hasValidations := c.sv.hasValidations ||
                schemaCopy.core.sv.hasValidations
              hasSliceValidations := hasSliceValidationsS sg.schema } } }
        let sg := { sg with
          genSchema := (sg.genSchema.withItems (some schemaCopy)) }
        return (sg, defs)

/-- The tuple-slot loop of `buildItems` for a named tuple context. -/
def buildTupleLoopWith (an : Analyzer) (fuel : Nat) (mgs : EngineFn)
    (defs : Defs) (sg : Ctx) (i : Nat) :
    List Schema → Except String (Ctx × Defs)
  | [] => pure (sg, defs)
  | s :: rest => do
      let elProp := sg.newTupleElement s i
      let (elProp, defs) ←
        if s.ref = "" then do
          let tpe ← sg.resolver.resolveSchema fuel defs (some s)
            (s.ref = "") true
          if tpe.flags.isComplexObject ∧ tpe.flags.isAnonymous then do
            let (_sgIgnored, pg, defs) := sg.makeNewSchema defs
              (sg.name ++ " Items" ++ toString i) s
            let (pg, defs) ← mgs defs pg
            let elProp := { elProp with
              schema := refProperty ("#/definitions/" ++ pg.name) }
            let elProp := elProp.mergeResult pg false
            let elProp := { elProp with extraSchemas := setAssoc elProp.extraSchemas pg.name pg.genSchema }
            pure (elProp, defs)
          else pure (elProp, defs)
        else pure (elProp, defs)
      let (elProp, defs) ← mgs defs elProp
      let sg := sg.mergeResult elProp false
      let elGen := elProp.genSchema.modCore fun c =>
        { c with
          name := "p" ++ toString i
          escapedName := mangleModelName ("p" ++ toString i) }
      let sg := { sg with genSchema :=
        ((sg.genSchema.withProperties
          (sg.genSchema.properties ++ [elGen])).withRT
          (sg.genSchema.rt.withFlags
            { sg.genSchema.rt.flags with isTuple := true })) }
      buildTupleLoopWith an fuel mgs defs sg (i + 1) rest

/-- `schemaGenContext.buildItems` (`model.go`): single-schema items are
arrays (and may not carry additionalItems), tuple items build one
positional member per slot, and anonymous tuples are hoisted into a
fresh named record type. -/
def buildItemsWith (an : Analyzer) (fuel : Nat) (mgs : EngineFn)
    (defs : Defs) (sg : Ctx) : Except String (Ctx × Defs) := do
    if ¬ sg.schema.hasItems then return (sg, defs)
    let presentsAsSingle := sg.schema.itemsSingle.isSome
    if presentsAsSingle ∧ sg.schema.additionalItems.isSome then
      throw ("single schema (" ++ sg.name ++ ") can't have additional items")
    if presentsAsSingle then buildArrayWith an fuel mgs defs sg
    else if sg.named then do
      let sg := { sg with genSchema := sg.genSchema.modCore fun c =>
        { c with
          name := sg.name
          escapedName := mangleModelName sg.name } }
      let sg := { sg with genSchema :=
        sg.genSchema.withRT (sg.genSchema.rt.withKclType
          (sg.resolver.kclTypeName sg.name)) }
      buildTupleLoopWith an fuel mgs defs sg 0 sg.schema.itemsTuple
    else do
      let props := sg.schema.itemsTuple.enum.map fun p =>
        ("P" ++ toString p.1, p.2)
      let required := sg.schema.itemsTuple.enum.map fun p =>
        "P" ++ toString p.1
      let sch := Schema.mk { type := [objectT], required := required }
        props false none [] none sg.schema.additionalItems []
      let (sg, tup, defs) := sg.makeNewSchema defs
        (sg.genSchema.core.name ++ "Tuple" ++ toString sg.index) sch
      let tup := { tup with isTuple := true }
      let (tup, defs) ← mgs defs tup
      let tupGen := ((tup.genSchema.withRT
        ((tup.genSchema.rt.withFlags
          { tup.genSchema.rt.flags with
            isTuple := true, isComplexObject := false }))).modCore fun c =>
        { c with
          title := c.name ++ " a representation of an anonymous Tuple type"
          description := "" })
      let tup := { tup with genSchema := tupGen }
      let sg := { sg with extraSchemas := setAssoc sg.extraSchemas tup.name tupGen }
      let sg := { sg with
        schema := refProperty ("#/definitions/" ++ tup.name) }
      let (sg, defs) ← mgs defs sg
      let sg := sg.mergeResult tup false
      return (sg, defs)

/-- `schemaGenContext.buildAdditionalItems` (`model.go`). -/
def buildAdditionalItemsWith (_an : Analyzer) (fuel : Nat) (mgs : EngineFn)
    (defs : Defs) (sg : Ctx) : Except String (Ctx × Defs) := do
    let wants :=
      match sg.schema.additionalItems with
      | some (allows, sch) => allows || sch.isSome
      | none => false
    let sg := { sg with genSchema := sg.genSchema.modCore fun c =>
      { c with hasAdditionalItems := wants } }
    if wants then do
      let aiSch := sg.schema.additionalItems.bind (·.2)
      let tpe ← sg.resolver.resolveSchema fuel defs aiSch true true
      let (sg, defs) ←
        if tpe.flags.isComplexObject ∧ tpe.flags.isAnonymous then do
          match aiSch with
          | none => throw "nil pointer dereference: AdditionalItems.Schema"
          | some aiSchema => do
            let (sg, pg, defs) := sg.makeNewSchema defs
              (sg.name ++ " Items") aiSchema
            let (pg, defs) ← mgs defs pg
            let pg := { pg with genSchema := pg.genSchema.modCore fun c =>
              { c with sv := { c.sv with hasValidations := true } } }
            let sg := sg.mergeResult pg false
            let sg := { sg with extraSchemas := setAssoc sg.extraSchemas pg.name pg.genSchema }
            let allows := (sg.schema.additionalItems.map (·.1)).getD false
            let newSch := sg.schema.withAdditionalItems
              (some (allows,
                some (refProperty ("#/definitions/" ++ pg.name))))
            let sg := { sg with schema := newSch }
            pure (sg, defs)
        else pure (sg, defs)
      let it := sg.newAdditionalItems (sg.schema.additionalItems.bind (·.2))
      let it := if tpe.flags.isArray then
          { it with indexVar := it.indexVar ++ "i" }
        else it
      let (it, defs) ← mgs defs it
      let sg := sg.mergeResult it true
      let sg := { sg with genSchema :=
        sg.genSchema.withAdditionalItems (some it.genSchema) }
      return (sg, defs)
    else return (sg, defs)

/-- `schemaGenContext.makeGenSchema` (`model.go`): the schema generation
engine for one context.  Returns the completed context and the (possibly
grown) definitions. -/
def makeGenSchema (an : Analyzer) : Nat → Defs → Ctx →
    Except String (Ctx × Defs)
  | 0, _defs, _sg => throw "schema nesting exceeds generation fuel"
  | fuel + 1, defs, sg => do
    let mgs : EngineFn := fun d c => makeGenSchema an fuel d c
    let sv ← sg.schemaValidations
    let nm := sg.kclName
    let g0 := sg.genSchema.modCore fun c =>
      { c with
        isExported := true
        originalName := sg.name
        name := nm
        escapedName := mangleModelName nm
        title := sg.schema.core.title
        description := sg.schema.core.description
        sv := { sv with required := sg.required }
        readOnly := sg.schema.core.readOnly
        strictAdditionalProperties := sg.strictAdditionalProperties }
    let sg := { sg with genSchema := g0 }
    let (returned, sg, defs) ← shortCircuitNamedRefWith an fuel mgs defs sg
    if returned then return (sg, defs)
    let sg ← sg.liftSpecialAllOf fuel defs
    let sg := if sg.container = "" then
        { sg with container := sg.genSchema.core.name }
      else sg
    let (sg, defs) ← buildAllOfWith an fuel mgs defs sg
    let tpe ← sg.resolver.resolveSchema fuel defs (some sg.schema)
      (¬ sg.named) (sg.isTuple || sg.required || sg.genSchema.required)
    let sg := { sg with genSchema :=
      (sg.genSchema.withRT tpe).modCore fun c =>
        { c with isBaseType := tpe.flags.isBaseType } }
    let (sg, defs) ← buildAdditionalPropertiesWith an fuel mgs defs sg
    let prev := sg.genSchema
    let tpe2 ← sg.resolver.resolveSchema fuel defs (some sg.schema)
      (¬ sg.named)
      (sg.named || sg.isTuple || sg.required || sg.genSchema.required)
    let rt2 := (tpe2.withIsComplexObject
      prev.rt.flags.isComplexObject).withIsMap prev.rt.flags.isMap
    let sg := { sg with genSchema :=
      (sg.genSchema.withRT rt2).modCore fun c =>
        { c with
          isAdditionalProperties := prev.core.isAdditionalProperties
          isBaseType := rt2.flags.hasDiscriminator } }
    let (sg, defs) ← buildPropertiesWith an fuel mgs defs sg
    let (sg, defs) ← buildAdditionalItemsWith an fuel mgs defs sg
    let (sg, defs) ← buildItemsWith an fuel mgs defs sg
    let sg := { sg with genSchema := sg.genSchema.modCore fun c =>
      { c with extensions := sg.schema.exts } }
    return (sg, defs)

end KclOpenapi

namespace KclOpenapi

/-- The reference strings registered as Discriminators by
`discriminatorInfo` (`discriminators.go`): named definitions carrying a
discriminator field.  Only membership is consulted during schema
generation, so the entry payloads are not modelled. -/
def discriminatorRefs (defs : Defs) : List String :=
  (defs.filter fun p => p.2.discriminator ≠ "").map
    fun p => "#/definitions/" ++ p.1

/-- The reference strings registered as Discriminated by
`discriminatorInfo` (`discriminators.go`): definitions whose allOf
references a registered Discriminator. -/
def discriminatedRefs (defs : Defs) : List String :=
  (defs.filter fun p => p.2.allOf.any fun ao =>
    ao.ref ≠ "" ∧ (discriminatorRefs defs).contains ao.ref).map
    fun p => "#/definitions/" ++ p.1

/-- `gatherExtraSchemas` (`support` part): the hoisted schemas sorted by
name. -/
def gatherExtraSchemas (extraMap : List (String × GenSchema)) :
    List GenSchema :=
  ((extraMap.map (·.1)).mergeSort (fun a b => a ≤ b)).filterMap
    fun k => (extraMap.find? (·.1 = k)).map (·.2)

/-- The context for one top-level named definition, as assembled by
`makeGenDefinitionHierarchy` (`model.go`). -/
def defRootCtx (defs : Defs) (name : String) (schema : Schema)
    (keepOrder : Bool) : Ctx :=
  { path := ""
    name := name
    indexVar := "i"
    schema := schema
    required := false
    named := true
    extraSchemas := []
    discriminators := discriminatorRefs defs
    discriminated := discriminatedRefs defs
    container := ""
    keepOrder := keepOrder
    resolver := { newTypeResolver "" defs with modelName := name } }

/-- `GenDefinition` (the fields the claims observe). -/
structure GenDefinition where
  genSchema : GenSchema
  dependsOn : List String
  extraSchemas : List GenSchema

/-- `makeGenDefinition` / `makeGenDefinitionHierarchy` (`model.go`),
restricted to documents where the generated definition is neither a
registered Discriminator nor Discriminated (the polymorphism post-pass
that would then run is not modelled; it only executes after
`makeGenSchema` succeeds and does not affect the error behaviour the
claims observe). -/
def makeGenDefinition (fuel : Nat) (an : Analyzer) (name : String)
    (defs : Defs) (keepOrder : Bool) : Except String GenDefinition := do
  let schema ← match lookupDef defs name with
    | some s => pure s
    | none => throw ("definition " ++ name ++ " not found")
  let pg := defRootCtx defs name schema keepOrder
  match makeGenSchema an fuel defs pg with
  | .error e =>
    throw ("could not generate schema for " ++ name ++ ": " ++ e)
  | .ok (pg, _defs) =>
    pure { genSchema := pg.genSchema
           dependsOn := pg.dependencies
           extraSchemas := gatherExtraSchemas pg.extraSchemas }

end KclOpenapi

namespace KclOpenapi

section ProjectionLemmas

@[simp] theorem GenSchema.modCore_allOf (g : GenSchema) (f : GSCore → GSCore) :
    (g.modCore f).allOf = g.allOf := rfl

@[simp] theorem GenSchema.modCore_rt (g : GenSchema) (f : GSCore → GSCore) :
    (g.modCore f).rt = g.rt := rfl

@[simp] theorem GenSchema.withRT_allOf (g : GenSchema) (r : ResolvedType) :
    (g.withRT r).allOf = g.allOf := rfl

@[simp] theorem GenSchema.withRT_rt (g : GenSchema) (r : ResolvedType) :
    (g.withRT r).rt = r := rfl

@[simp] theorem GenSchema.modCore_core (g : GenSchema) (f : GSCore → GSCore) :
    (g.modCore f).core = f g.core := rfl

@[simp] theorem Ctx.mergeResult_genSchema_allOf (sg other : Ctx) (l : Bool) :
    (sg.mergeResult other l).genSchema.allOf = sg.genSchema.allOf := by
  unfold Ctx.mergeResult
  split <;> split <;> split <;> rfl

@[simp] theorem Ctx.mergeResult_genSchema_rt (sg other : Ctx) (l : Bool) :
    (sg.mergeResult other l).genSchema.rt = sg.genSchema.rt := by
  unfold Ctx.mergeResult
  split <;> split <;> split <;> rfl

@[simp] theorem RTFlags.isMap_withEmptyOmitted (f : RTFlags) (b : Bool) :
    ({ f with isEmptyOmitted := b } : RTFlags).isMap = f.isMap := rfl

@[simp] theorem ResolvedType.setIsEmptyOmitted_flags_isMap (r : ResolvedType)
    (s : Schema) (t : String) :
    (r.setIsEmptyOmitted s t).flags.isMap = r.flags.isMap := by
  unfold ResolvedType.setIsEmptyOmitted ResolvedType.withIsEmptyOmitted
  split <;> rfl

@[simp] theorem ResolvedType.setIsEmptyOmitted_flags_isComplexObject
    (r : ResolvedType) (s : Schema) (t : String) :
    (r.setIsEmptyOmitted s t).flags.isComplexObject =
      r.flags.isComplexObject := by
  unfold ResolvedType.setIsEmptyOmitted ResolvedType.withIsEmptyOmitted
  split <;> rfl

@[simp] theorem ResolvedType.setIsEmptyOmitted_elemType (r : ResolvedType)
    (s : Schema) (t : String) :
    (r.setIsEmptyOmitted s t).elemType = r.elemType := by
  unfold ResolvedType.setIsEmptyOmitted ResolvedType.withIsEmptyOmitted
  split <;> rfl

@[simp] theorem ResolvedType.setIsEmptyOmitted_kclType (r : ResolvedType)
    (s : Schema) (t : String) :
    (r.setIsEmptyOmitted s t).kclType = r.kclType := by
  unfold ResolvedType.setIsEmptyOmitted ResolvedType.withIsEmptyOmitted
  split <;> rfl

end ProjectionLemmas

/-- C2 counterexample input: a bare two-element `{string, integer}` type
list with no format and no vendor extension. -/
def c2IntStrSchema : Schema :=
  .mk { type := [strT, integerT] } [] false none [] none none []

/-- C2 second input: a multi-type list that is not the special pair. -/
def c2StrBoolSchema : Schema :=
  .mk { type := [strT, booleanT] } [] false none [] none none []

/-- C2: the claim is false on the code: a two-element type list of
exactly `{string, integer}` makes `ResolveSchema` return the
"unresolvable" error (there is no `intorstring` case in its dispatch),
while a different multi-entry type list such as `{string, boolean}`
resolves without error by taking the first type. -/
theorem C2_counterexample :
    (newTypeResolver "" []).resolveSchema 2 [] (some c2IntStrSchema) true false =
      .error "unresolvable: [string integer] (format \"\")" ∧
    (match (newTypeResolver "" []).resolveSchema 2 [] (some c2StrBoolSchema)
        true false with
     | .ok tp => tp.flags.isPrimitive && (tp.swaggerType == strT)
     | .error _ => false) = true := by
  exact ⟨rfl, rfl⟩

end KclOpenapi

namespace KclOpenapi

section ResolverLemmas

theorem firstType_pair (t : TypeResolver) (s : Schema)
    (hp : s.type = [strT, integerT] ∨ s.type = [integerT, strT]) :
    t.firstType s = intOrStrT := by
  unfold TypeResolver.firstType
  rcases hp with h | h <;> rw [h] <;> decide

theorem firstType_head (t : TypeResolver) (s : Schema)
    (hh : s.type.headD "" ≠ "")
    (hnp : ¬ (s.type = [strT, integerT] ∨ s.type = [integerT, strT])) :
    t.firstType s = s.type.headD "" := by
  unfold TypeResolver.firstType
  have h0 : ¬ (s.type.length = 0 ∨ s.type.headD "" = "") := by
    rintro (h | h)
    · have he : s.type = [] := List.length_eq_zero.mp h
      rw [he] at hh
      exact hh rfl
    · exact hh h
  rw [if_neg h0]
  have h2 : ¬ (s.type.length = 2 ∧
      ((s.type.headD "" = strT ∧ s.type.getD 1 "" = integerT) ∨
       (s.type.headD "" = integerT ∧ s.type.getD 1 "" = strT))) := by
    rintro ⟨hl, hc⟩
    rcases List.length_eq_two.mp hl with ⟨a, b, hab⟩
    rw [hab] at hc
    simp at hc
    rcases hc with ⟨ha, hb⟩ | ⟨ha, hb⟩
    · exact hnp (Or.inl (by rw [hab, ha, hb]))
    · exact hnp (Or.inr (by rw [hab, ha, hb]))
  rw [if_neg h2]

/-- `ResolveSchema` on a node that is not a reference, whose format does
not resolve (because it is empty) and that does not carry the
int-or-string extension reduces to the first-type dispatch. -/
theorem resolveSchema_noRef_noFormat_noExt (t : TypeResolver) (fuel : Nat)
    (defs : Defs) (s : Schema) (a r : Bool)
    (h1 : s.ref = "") (h2 : s.format = "")
    (h3 : s.exts.xIntOrString ≠ some true) :
    t.resolveSchema (fuel + 1) defs (some s) a r =
      (let recFn : ResolveFn := fun os a r => t.resolveSchema fuel defs os a r
       let tpe := t.firstType s
       if tpe = arrayT then do
         let rr ← t.resolveArrayWith recFn s a false
         pure (rr.setIsEmptyOmitted s tpe)
       else if tpe = numberT ∨ tpe = integerT ∨ tpe = booleanT ∨ tpe = strT then
         pure ((ResolvedType.mk { isPrimitive := true }
           ((typeMapping tpe).getD "") tpe "" "" "" "" none).setIsEmptyOmitted s tpe)
       else if tpe = objectT then do
         let rr ← t.resolveObjectWith recFn s a
         pure ((rr.withHasDiscriminator (s.discriminator ≠ "")).setIsEmptyOmitted s tpe)
       else
         throw ("unresolvable: [" ++ String.intercalate " " s.type ++
           "] (format \"" ++ s.format ++ "\")")) := by
  conv_lhs => rw [TypeResolver.resolveSchema]
  rw [TypeResolver.resolveSchemaRefWith, if_pos h1]
  rw [TypeResolver.resolveFormat, if_neg (by rw [h2]; exact fun h => h rfl)]
  rw [TypeResolver.resolveExtensions, if_neg h3]

@[simp] theorem ResolvedType.withFlags_flags (r : ResolvedType) (f : RTFlags) :
    (r.withFlags f).flags = f := rfl

@[simp] theorem ResolvedType.withFlags_elemType (r : ResolvedType) (f : RTFlags) :
    (r.withFlags f).elemType = r.elemType := rfl

@[simp] theorem ResolvedType.withKclType_flags (r : ResolvedType) (k : String) :
    (r.withKclType k).flags = r.flags := rfl

@[simp] theorem ResolvedType.withKclType_elemType (r : ResolvedType) (k : String) :
    (r.withKclType k).elemType = r.elemType := rfl

@[simp] theorem ResolvedType.withSwaggerType_flags (r : ResolvedType) (k : String) :
    (r.withSwaggerType k).flags = r.flags := rfl

@[simp] theorem ResolvedType.withSwaggerType_elemType (r : ResolvedType) (k : String) :
    (r.withSwaggerType k).elemType = r.elemType := rfl

@[simp] theorem ResolvedType.withElemType_flags (r : ResolvedType)
    (e : Option ResolvedType) : (r.withElemType e).flags = r.flags := rfl

@[simp] theorem ResolvedType.withElemType_elemType (r : ResolvedType)
    (e : Option ResolvedType) : (r.withElemType e).elemType = e := rfl

@[simp] theorem ResolvedType.withIsMap_flags (r : ResolvedType) (b : Bool) :
    (r.withIsMap b).flags = { r.flags with isMap := b } := rfl

@[simp] theorem ResolvedType.withIsMap_elemType (r : ResolvedType) (b : Bool) :
    (r.withIsMap b).elemType = r.elemType := rfl

@[simp] theorem ResolvedType.withIsComplexObject_flags (r : ResolvedType) (b : Bool) :
    (r.withIsComplexObject b).flags = { r.flags with isComplexObject := b } := rfl

@[simp] theorem ResolvedType.withIsComplexObject_elemType (r : ResolvedType) (b : Bool) :
    (r.withIsComplexObject b).elemType = r.elemType := rfl

@[simp] theorem ResolvedType.withHasDiscriminator_flags (r : ResolvedType) (b : Bool) :
    (r.withHasDiscriminator b).flags = { r.flags with hasDiscriminator := b } := rfl

@[simp] theorem ResolvedType.withHasDiscriminator_elemType (r : ResolvedType) (b : Bool) :
    (r.withHasDiscriminator b).elemType = r.elemType := rfl

@[simp] theorem ResolvedType.withIsBaseType_flags (r : ResolvedType) (b : Bool) :
    (r.withIsBaseType b).flags = { r.flags with isBaseType := b } := rfl

@[simp] theorem ResolvedType.withIsBaseType_elemType (r : ResolvedType) (b : Bool) :
    (r.withIsBaseType b).elemType = r.elemType := rfl

@[simp] theorem ResolvedType.setIsEmptyOmitted_flags_isArray (r : ResolvedType)
    (s : Schema) (t : String) :
    (r.setIsEmptyOmitted s t).flags.isArray = r.flags.isArray := by
  unfold ResolvedType.setIsEmptyOmitted ResolvedType.withIsEmptyOmitted
  split <;> rfl

@[simp] theorem ResolvedType.setIsEmptyOmitted_flags_isPrimitive (r : ResolvedType)
    (s : Schema) (t : String) :
    (r.setIsEmptyOmitted s t).flags.isPrimitive = r.flags.isPrimitive := by
  unfold ResolvedType.setIsEmptyOmitted ResolvedType.withIsEmptyOmitted
  split <;> rfl

@[simp] theorem ResolvedType.setIsEmptyOmitted_flags_isBaseType (r : ResolvedType)
    (s : Schema) (t : String) :
    (r.setIsEmptyOmitted s t).flags.isBaseType = r.flags.isBaseType := by
  unfold ResolvedType.setIsEmptyOmitted ResolvedType.withIsEmptyOmitted
  split <;> rfl

end ResolverLemmas

/-- C2 amended: for a non-reference node with no format and no
int-or-string extension, a two-element type list of exactly
`{string, integer}` (either order) makes `ResolveSchema` return the
"unresolvable" error, while any other multi-entry type list whose first
entry is a supported primitive type resolves to that primitive (the
dispatch takes the first type). -/
theorem C2_multi_type_dispatch (t : TypeResolver) (fuel : Nat) (defs : Defs)
    (s : Schema) (a r : Bool) (h1 : s.ref = "") (h2 : s.format = "")
    (h3 : s.exts.xIntOrString ≠ some true) :
    ((s.type = [strT, integerT] ∨ s.type = [integerT, strT]) →
      t.resolveSchema (fuel + 1) defs (some s) a r =
        .error ("unresolvable: [" ++ String.intercalate " " s.type ++
          "] (format \"" ++ s.format ++ "\")")) ∧
    (∀ t0, s.type.headD "" = t0 → 2 ≤ s.type.length →
      ¬ (s.type = [strT, integerT] ∨ s.type = [integerT, strT]) →
      (t0 = numberT ∨ t0 = integerT ∨ t0 = booleanT ∨ t0 = strT) →
      t.resolveSchema (fuel + 1) defs (some s) a r =
        .ok ((ResolvedType.mk { isPrimitive := true }
          ((typeMapping t0).getD "") t0 "" "" "" "" none).setIsEmptyOmitted
          s t0)) := by
  rw [resolveSchema_noRef_noFormat_noExt t fuel defs s a r h1 h2 h3]
  constructor
  · intro hp
    rw [firstType_pair t s hp]
    rw [if_neg (by decide), if_neg (by decide), if_neg (by decide)]
    rfl
  · intro t0 hh hlen hnp hprim
    have hne : s.type.headD "" ≠ "" := by
      rw [hh]
      rcases hprim with h | h | h | h <;> rw [h] <;> decide
    rw [firstType_head t s hne hnp, hh]
    rcases hprim with h | h | h | h <;> rw [h] <;> rfl

/-- C2 amended witness: the special pair errors and `{string, boolean}`
resolves as a string primitive. -/
theorem C2_multi_type_dispatch_witness :
    c2IntStrSchema.ref = "" ∧
    (newTypeResolver "" []).resolveSchema 3 [] (some c2IntStrSchema) true false =
      .error ("unresolvable: [" ++
        String.intercalate " " c2IntStrSchema.type ++ "] (format \"" ++
        c2IntStrSchema.format ++ "\")") ∧
    (newTypeResolver "" []).resolveSchema 3 [] (some c2StrBoolSchema) true false =
      .ok ((ResolvedType.mk { isPrimitive := true }
        ((typeMapping strT).getD "") strT "" "" "" "" none).setIsEmptyOmitted
        c2StrBoolSchema strT) := by
  refine ⟨rfl, ?_, ?_⟩
  · exact (C2_multi_type_dispatch (newTypeResolver "" []) 2 [] c2IntStrSchema
      true false rfl rfl (by decide)).1 (Or.inl rfl)
  · exact (C2_multi_type_dispatch (newTypeResolver "" []) 2 [] c2StrBoolSchema
      true false rfl rfl (by decide)).2 strT rfl (by decide) (by decide)
      (by decide)

end KclOpenapi

namespace KclOpenapi

/-- C8: a schema tagged with `x-kubernetes-int-or-string: true` (and not
overridden by the earlier reference or format resolution steps) resolves
to the int-or-string union type `int | str`, regardless of the contents
of its declared type list. -/
theorem C8_int_or_string_extension (t : TypeResolver) (fuel : Nat)
    (defs : Defs) (s : Schema) (a r : Bool) (h1 : s.ref = "")
    (h2 : s.format = "") (h3 : s.exts.xIntOrString = some true) :
    ∃ res, t.resolveSchema (fuel + 1) defs (some s) a r = .ok res ∧
      res.kclType = "int | str" := by
  have heq : t.resolveSchema (fuel + 1) defs (some s) a r =
      .ok (((ResolvedType.default.withSwaggerType (match s.type with
          | [] => strT
          | t0 :: _ => t0)).withKclType
        ((typeMapping intOrStrT).getD "")).setIsEmptyOmitted s
        (t.firstType s)) := by
    rw [TypeResolver.resolveSchema]
    rw [TypeResolver.resolveSchemaRefWith, if_pos h1]
    rw [TypeResolver.resolveFormat, if_neg (by rw [h2]; exact fun h => h rfl)]
    rw [TypeResolver.resolveExtensions, if_pos h3]
    rfl
  refine ⟨_, heq, ?_⟩
  rw [ResolvedType.setIsEmptyOmitted_kclType]
  rfl

/-- A schema with a multi-entry type list carrying the Kubernetes
int-or-string extension. -/
def c8Schema : Schema :=
  .mk { type := [objectT, arrayT], exts := { xIntOrString := some true } }
    [] false none [] none none []

/-- C8 witness: the extension wins even over a type list naming
`object` and `array`. -/
theorem C8_int_or_string_extension_witness :
    c8Schema.ref = "" ∧ c8Schema.exts.xIntOrString = some true ∧
    ∃ res, (newTypeResolver "" []).resolveSchema 3 [] (some c8Schema)
      true false = .ok res ∧ res.kclType = "int | str" :=
  ⟨rfl, rfl, C8_int_or_string_extension (newTypeResolver "" []) 2 []
    c8Schema true false rfl rfl rfl⟩

/-- C10: a non-reference node (without format or int-or-string
extension) whose type list is empty or starts with the empty string is
classified as JSON type `object` and dispatched to object resolution:
`ResolveSchema` returns exactly the (post-processed) result of
`resolveObject`, and in particular produces an error only when object
resolution itself does. -/
theorem C10_empty_type_is_object (t : TypeResolver) (fuel : Nat)
    (defs : Defs) (s : Schema) (a r : Bool) (h1 : s.ref = "")
    (h2 : s.format = "") (h3 : s.exts.xIntOrString ≠ some true)
    (h4 : s.type = [] ∨ s.type.headD "" = "") :
    t.firstType s = objectT ∧
    (∀ e, t.resolveObjectWith (fun os a r => t.resolveSchema fuel defs os a r)
        s a = .error e →
      t.resolveSchema (fuel + 1) defs (some s) a r = .error e) ∧
    (∀ rr, t.resolveObjectWith (fun os a r => t.resolveSchema fuel defs os a r)
        s a = .ok rr →
      t.resolveSchema (fuel + 1) defs (some s) a r =
        .ok ((rr.withHasDiscriminator (s.discriminator ≠ "")).setIsEmptyOmitted
          s objectT)) := by
  have hft : t.firstType s = objectT := by
    unfold TypeResolver.firstType
    rw [if_pos]
    rcases h4 with h | h
    · exact Or.inl (by rw [h]; rfl)
    · exact Or.inr h
  refine ⟨hft, ?_, ?_⟩
  · intro e he
    rw [resolveSchema_noRef_noFormat_noExt t fuel defs s a r h1 h2 h3]
    rw [hft, if_neg (by decide), if_neg (by decide), if_pos rfl]
    rw [he]
    rfl
  · intro rr hrr
    rw [resolveSchema_noRef_noFormat_noExt t fuel defs s a r h1 h2 h3]
    rw [hft, if_neg (by decide), if_neg (by decide), if_pos rfl]
    rw [hrr]
    rfl

/-- A schema with no declared type at all. -/
def c10Schema : Schema := .mk {} [] false none [] none none []

/-- C10 witness: a typeless anonymous node resolves through object
resolution without error (to the universal any-map). -/
theorem C10_empty_type_is_object_witness :
    (newTypeResolver "" []).firstType c10Schema = objectT ∧
    (newTypeResolver "" []).resolveSchema 3 [] (some c10Schema) true false =
      .ok ((((ResolvedType.mk
        { isAnonymous := true, isMap := true } anyT objectT "" "" "" ""
        none).withHasDiscriminator
        (c10Schema.discriminator ≠ "")).setIsEmptyOmitted c10Schema
        objectT)) := by
  have h := C10_empty_type_is_object (newTypeResolver "" []) 2 [] c10Schema
    true false rfl rfl (by decide) (Or.inl rfl)
  exact ⟨h.1, h.2.2 _ rfl⟩

end KclOpenapi

namespace KclOpenapi

/-- The trivial analyzer verdict, for documents where the analyzer's
classification is irrelevant to the exercised paths. -/
def anTrivial : Analyzer := fun _ _ => {}

/-- A plain string schema. -/
def strSchemaP : Schema := .mk { type := [strT] } [] false none [] none none []

/-- C7 concrete input: an object schema with one declared property and a
string-valued additionalProperties. -/
def c7ObjWithAP : Schema :=
  .mk { type := [objectT] } [("p", strSchemaP)] false none []
    (some (false, some strSchemaP)) none []

/-- C7: an object schema with an additionalProperties schema and no
declared properties resolves as a map (`isMap`, not `isComplexObject`)
whose element type is the resolved value schema; with at least one
declared property it resolves as a complex object (`isComplexObject`,
not `isMap`), and the generation engine then stores the
additionalProperties as an extra named field store
(`IsAdditionalProperties`, an attached AdditionalProperties child, and
still not a map) rather than turning the object into a map. -/
theorem C7_map_vs_object (t : TypeResolver) (fuel : Nat) (defs : Defs)
    (s : Schema) (a r bAllows : Bool) (v : Schema) (et : ResolvedType)
    (h1 : s.ref = "") (h2 : s.format = "")
    (h3 : s.exts.xIntOrString ≠ some true)
    (h4 : s.type = [objectT]) (h5 : s.allOf = [])
    (hap : s.additionalProperties = some (bAllows, some v))
    (hv : t.resolveSchema fuel defs (some v) (v.ref = "") false = .ok et) :
    (s.properties = [] →
      ∃ res, t.resolveSchema (fuel + 1) defs (some s) a r = .ok res ∧
        res.flags.isMap = true ∧ res.flags.isComplexObject = false ∧
        res.elemType = some et) ∧
    (s.properties ≠ [] →
      ∃ res, t.resolveSchema (fuel + 1) defs (some s) a r = .ok res ∧
        res.flags.isComplexObject = true ∧ res.flags.isMap = false) ∧
    (match makeGenDefinition 8 anTrivial "M" [("M", c7ObjWithAP)] false with
     | .ok d => d.genSchema.core.isAdditionalProperties &&
         !d.genSchema.rt.flags.isMap &&
         d.genSchema.additionalProperties.isSome
     | .error _ => false) = true := by
  have hft : t.firstType s = objectT := by
    unfold TypeResolver.firstType
    rw [h4]
    decide
  have hbase : t.resolveSchema (fuel + 1) defs (some s) a r =
      (t.resolveObjectWith (fun os a r => t.resolveSchema fuel defs os a r)
        s a).bind fun rr =>
        pure ((rr.withHasDiscriminator (s.discriminator ≠ "")).setIsEmptyOmitted
          s objectT) := by
    rw [resolveSchema_noRef_noFormat_noExt t fuel defs s a r h1 h2 h3]
    rw [hft, if_neg (by decide), if_neg (by decide), if_pos rfl]
    rfl
  refine ⟨?_, ?_, by decide⟩
  · intro hp
    have hobj : ∃ rr, t.resolveObjectWith
        (fun os a r => t.resolveSchema fuel defs os a r) s a = .ok rr ∧
        rr.flags.isMap = true ∧ rr.flags.isComplexObject = false ∧
        rr.elemType = some et := by
      unfold TypeResolver.resolveObjectWith
      rw [h5, hap, hp]
      simp only [List.isEmpty_nil, not_true_eq_false, if_false, hv]
      cases a <;> exact ⟨_, rfl, rfl, rfl, rfl⟩
    obtain ⟨rr, hrr, hm, hc, he⟩ := hobj
    refine ⟨(rr.withHasDiscriminator (s.discriminator ≠ "")).setIsEmptyOmitted
      s objectT, ?_, ?_, ?_, ?_⟩
    · rw [hbase, hrr]
      rfl
    · simp [hm]
    · simp [hc]
    · simp [he]
  · intro hp
    have hpe : s.properties.isEmpty = false := by
      cases hh : s.properties with
      | nil => exact absurd hh hp
      | cons x xs => rfl
    have hobj : ∃ rr, t.resolveObjectWith
        (fun os a r => t.resolveSchema fuel defs os a r) s a = .ok rr ∧
        rr.flags.isComplexObject = true ∧ rr.flags.isMap = false := by
      unfold TypeResolver.resolveObjectWith
      rw [h5, hap, hpe]
      simp only [List.isEmpty_nil, not_true_eq_false, if_false, hv,
        Bool.not_false, if_true]
      cases a <;> exact ⟨_, rfl, rfl, rfl⟩
    obtain ⟨rr, hrr, hc, hm⟩ := hobj
    refine ⟨(rr.withHasDiscriminator (s.discriminator ≠ "")).setIsEmptyOmitted
      s objectT, ?_, ?_, ?_⟩
    · rw [hbase, hrr]
      rfl
    · simp [hc]
    · simp [hm]

/-- C7 concrete input: the same additionalProperties with no declared
properties. -/
def c7MapSchema : Schema :=
  .mk { type := [objectT] } [] false none []
    (some (false, some strSchemaP)) none []

/-- C7 witness: instantiating the map case on a concrete document. -/
theorem C7_map_vs_object_witness :
    c7MapSchema.properties = [] ∧
    ∃ res, (newTypeResolver "" []).resolveSchema 3 [] (some c7MapSchema)
        true false = .ok res ∧
      res.flags.isMap = true ∧ res.flags.isComplexObject = false ∧
      res.elemType = some ((ResolvedType.mk { isPrimitive := true }
        ((typeMapping strT).getD "") strT "" "" "" "" none).setIsEmptyOmitted
        strSchemaP strT) :=
  ⟨rfl, (C7_map_vs_object (newTypeResolver "" []) 2 [] c7MapSchema true false
    false strSchemaP _ rfl rfl (by decide) rfl rfl rfl (by rfl)).1 rfl⟩

end KclOpenapi

namespace KclOpenapi

/-- A child context carrying only the base-type flag. -/
def c3Child : Ctx :=
  { genSchema := GenSchema.empty.modCore fun c => { c with hasBaseType := true } }

/-- C3: the claim is false on the code: with the per-call-site lift flag
disabled, `MergeResult` still propagates the child's base-type flag to
the parent (the `HasBaseType` update is not guarded by
`liftsRequired`). -/
theorem C3_counterexample :
    (({} : Ctx).mergeResult c3Child false).genSchema.core.hasBaseType = true ∧
    ({} : Ctx).genSchema.core.hasBaseType = false ∧
    (({} : Ctx).mergeResult c3Child false).genSchema.required = false := by
  exact ⟨rfl, rfl, rfl⟩

/-- C3 amended: `MergeResult` propagates validation presence (of the
child or of its additionalProperties / additionalItems / allOf
branches), the dependency names and the extra schemas unconditionally;
the required flag (the child's own, or the one on its
additionalProperties) is propagated only when the lift flag is enabled;
the base-type flag is propagated unconditionally. -/
theorem C3_merge_result (sg other : Ctx) (lift : Bool) :
    ((sg.mergeResult other lift).genSchema.hasValidations =
      (sg.genSchema.hasValidations ||
        ((match other.genSchema.additionalProperties with
          | some ap => ap.core.sv.hasValidations
          | none => false) ||
         (match other.genSchema.additionalItems with
          | some ai => ai.core.sv.hasValidations
          | none => false) ||
         other.genSchema.allOf.any (·.core.sv.hasValidations) ||
         other.genSchema.core.sv.hasValidations))) ∧
    ((sg.mergeResult other lift).genSchema.required =
      (sg.genSchema.required ||
        (lift && ((match other.genSchema.additionalProperties with
                   | some ap => ap.core.sv.required
                   | none => false) ||
                  other.genSchema.required)))) ∧
    ((sg.mergeResult other lift).genSchema.core.hasBaseType =
      (sg.genSchema.core.hasBaseType || other.genSchema.core.hasBaseType)) ∧
    ((sg.mergeResult other lift).dependencies =
      sg.dependencies ++ other.dependencies) ∧
    ((sg.mergeResult other lift).extraSchemas =
      other.extraSchemas.foldl (fun acc p => setAssoc acc p.1 p.2)
        sg.extraSchemas) := by
  unfold Ctx.mergeResult mergeValidation
  constructor
  · split_ifs <;> simp [GenSchema.hasValidations]
  constructor
  · split_ifs with hA hB hC hD hE hF <;>
      simp_all [GenSchema.required, Bool.and_eq_true]
  constructor
  · split_ifs <;> simp_all [Bool.not_eq_true]
  constructor
  · split_ifs <;> rfl
  · split_ifs <;> rfl

/-- C3 amended witness. -/
theorem C3_merge_result_witness :
    (({} : Ctx).mergeResult c3Child false).genSchema.core.hasBaseType =
      ((({} : Ctx)).genSchema.core.hasBaseType ||
        c3Child.genSchema.core.hasBaseType) :=
  (C3_merge_result {} c3Child false).2.2.1

end KclOpenapi

namespace KclOpenapi

/-- C9: an enum list containing a nil literal alongside values that are
all scalar does not fail: `pruneEnums` succeeds with the warning flag
set and keeps exactly the scalar entries, in their original order
(the order-preserving filter of the input). -/
theorem C9_null_enum_pruned (modelName : String) (enum : List EnumVal)
    (hnil : EnumVal.vNull ∈ enum)
    (hscalar : ∀ v ∈ enum, v ≠ .vNull → enumScalar v = true) :
    pruneEnums modelName enum = .ok (enum.filter enumScalar, true) := by
  unfold pruneEnums
  have hne : enum.isEmpty = false := by
    cases enum with
    | nil => cases hnil
    | cons x xs => rfl
  rw [hne]
  have hcn : enum.contains .vNull = true := List.elem_eq_true_of_mem hnil
  have hcc : enum.contains .vComplex = false := by
    by_contra h
    have hb : enum.contains .vComplex = true := Bool.of_not_eq_false h
    have hmem : EnumVal.vComplex ∈ enum := by
      simpa using hb
    have := hscalar _ hmem (by decide)
    simp [enumScalar] at this
  simp only [hcn, hcc, Bool.false_eq_true, if_false, if_true]
  rfl

/-- C9 witness: a concrete enum with a nil among scalars. -/
theorem C9_null_enum_pruned_witness :
    EnumVal.vNull ∈ [EnumVal.vStr "a", EnumVal.vNull, EnumVal.vNum 3] ∧
    pruneEnums "m" [EnumVal.vStr "a", EnumVal.vNull, EnumVal.vNum 3] =
      .ok ([EnumVal.vStr "a", EnumVal.vNum 3], true) := by
  refine ⟨by decide, ?_⟩
  have := C9_null_enum_pruned "m"
    [EnumVal.vStr "a", EnumVal.vNull, EnumVal.vNum 3] (by decide) (by decide)
  rw [this]
  rfl

end KclOpenapi

namespace KclOpenapi

/-- C6 concrete input: single-schema items together with
additionalItems. -/
def c6MixedItems : Schema :=
  .mk { type := [arrayT] } [] true (some strSchemaP) [] none
    (some (false, some strSchemaP)) []

/-- C6 concrete input: single-schema items, no additionalItems. -/
def c6SingleItems : Schema :=
  .mk { type := [arrayT] } [] true (some strSchemaP) [] none none []

/-- C6: a schema with single-schema items and a non-absent
additionalItems makes `buildItems` fail with the fatal "can't have
additional items" error (shown on the concrete document to abort
`makeGenDefinition` so that no generation model is produced), while with
single-schema items and no additionalItems `buildItems` just delegates
to the array build (no such error is raised by the check), as on the
concrete array document which builds successfully. -/
theorem C6_mixed_items (an : Analyzer) (fuel : Nat) (mgs : EngineFn)
    (defs : Defs) (sg : Ctx) :
    (sg.schema.hasItems = true → sg.schema.itemsSingle.isSome = true →
      sg.schema.additionalItems.isSome = true →
      buildItemsWith an fuel mgs defs sg =
        .error ("single schema (" ++ sg.name ++
          ") can't have additional items")) ∧
    (sg.schema.hasItems = true → sg.schema.itemsSingle.isSome = true →
      sg.schema.additionalItems = none →
      buildItemsWith an fuel mgs defs sg =
        buildArrayWith an fuel mgs defs sg) ∧
    (makeGenDefinition 8 anTrivial "M" [("M", c6MixedItems)] false =
      .error ("could not generate schema for M: " ++
        "single schema (M) can't have additional items")) ∧
    (match makeGenDefinition 8 anTrivial "M" [("M", c6SingleItems)] false with
     | .ok d => d.genSchema.rt.flags.isArray
     | .error _ => false) = true := by
  refine ⟨?_, ?_, by rfl, by rfl⟩
  · intro h1 h2 h3
    unfold buildItemsWith
    simp only [h1, h2, h3]
    rfl
  · intro h1 h2 h3
    unfold buildItemsWith
    simp only [h1, h2, h3]
    rfl

/-- C6 witness: instantiating the two conditional parts on the concrete
documents. -/
theorem C6_mixed_items_witness :
    buildItemsWith anTrivial 4 (makeGenSchema anTrivial 4) []
      (defRootCtx [] "M" c6MixedItems false) =
      .error "single schema (M) can't have additional items" ∧
    buildItemsWith anTrivial 4 (makeGenSchema anTrivial 4) []
      (defRootCtx [] "M" c6SingleItems false) =
      buildArrayWith anTrivial 4 (makeGenSchema anTrivial 4) []
        (defRootCtx [] "M" c6SingleItems false) := by
  constructor
  · exact (C6_mixed_items anTrivial 4 (makeGenSchema anTrivial 4) []
      (defRootCtx [] "M" c6MixedItems false)).1 rfl rfl rfl
  · exact (C6_mixed_items anTrivial 4 (makeGenSchema anTrivial 4) []
      (defRootCtx [] "M" c6SingleItems false)).2.1 rfl rfl rfl

end KclOpenapi

namespace KclOpenapi

theorem liftScan_noCounted (t : TypeResolver) (fuel : Nat) (defs : Defs) :
    ∀ (l : List Schema) (seen : Nat) (acc : Schema),
      (∀ sch ∈ l, ∃ tp, t.resolveSchema fuel defs (some sch) true true = .ok tp) →
      (l.filter liftCounted).length = 0 →
      liftScan t fuel defs l seen acc = .ok (seen, acc) := by
  intro l
  induction l with
  | nil => intro seen acc _ _; rfl
  | cons sch rest ih =>
    intro seen acc hres hcnt
    obtain ⟨tp, htp⟩ := hres sch (List.mem_cons_self _ _)
    have hc : liftCounted sch = false := by
      by_contra h
      have hb : liftCounted sch = true := by
        cases hh : liftCounted sch
        · exact absurd hh h
        · rfl
      simp [List.filter, hb] at hcnt
    unfold liftScan
    rw [htp]
    simp only [Except.bind, hc, Bool.false_eq_true, if_false]
    exact ih seen acc (fun s hs => hres s (List.mem_cons_of_mem _ hs))
      (by simpa [List.filter, hc] using hcnt)

theorem liftScan_fromOne (t : TypeResolver) (fuel : Nat) (defs : Defs) :
    ∀ (l : List Schema) (acc : Schema),
      (∀ sch ∈ l, ∃ tp, t.resolveSchema fuel defs (some sch) true true = .ok tp) →
      1 ≤ (l.filter liftCounted).length →
      liftScan t fuel defs l 1 acc = .ok (2, acc) := by
  intro l
  induction l with
  | nil => intro acc _ h; simp [List.filter] at h
  | cons sch rest ih =>
    intro acc hres hcnt
    obtain ⟨tp, htp⟩ := hres sch (List.mem_cons_self _ _)
    unfold liftScan
    rw [htp]
    cases hc : liftCounted sch with
    | true =>
      simp only [Except.bind, hc, if_true]
      rfl
    | false =>
      simp only [Except.bind, hc, Bool.false_eq_true, if_false]
      exact ih acc (fun s hs => hres s (List.mem_cons_of_mem _ hs))
        (by simpa [List.filter, hc] using hcnt)

end KclOpenapi

namespace KclOpenapi

theorem liftScan_oneCounted (t : TypeResolver) (fuel : Nat) (defs : Defs) :
    ∀ (l : List Schema) (acc : Schema),
      (∀ sch ∈ l, ∃ tp, t.resolveSchema fuel defs (some sch) true true = .ok tp) →
      (l.filter liftCounted).length = 1 →
      ∃ e tp, e ∈ l ∧ liftCounted e = true ∧
        t.resolveSchema fuel defs (some e) true true = .ok tp ∧
        liftScan t fuel defs l 0 acc =
          .ok (1, if liftCandidate tp then e else acc) := by
  intro l
  induction l with
  | nil => intro acc _ h; simp [List.filter] at h
  | cons sch rest ih =>
    intro acc hres hcnt
    obtain ⟨tp, htp⟩ := hres sch (List.mem_cons_self _ _)
    cases hc : liftCounted sch with
    | true =>
      have hrest : (rest.filter liftCounted).length = 0 := by
        simpa [List.filter, hc] using hcnt
      refine ⟨sch, tp, List.mem_cons_self _ _, hc, htp, ?_⟩
      unfold liftScan
      rw [htp]
      simp only [Except.bind, hc, if_true]
      have := liftScan_noCounted t fuel defs rest 1
        (if liftCandidate tp then sch else acc)
        (fun s hs => hres s (List.mem_cons_of_mem _ hs)) hrest
      simpa using this
    | false =>
      have hrest : (rest.filter liftCounted).length = 1 := by
        simpa [List.filter, hc] using hcnt
      obtain ⟨e, tp', hmem, hce, htp', heq⟩ := ih acc
        (fun s hs => hres s (List.mem_cons_of_mem _ hs)) hrest
      refine ⟨e, tp', List.mem_cons_of_mem _ hmem, hce, htp', ?_⟩
      unfold liftScan
      rw [htp]
      simp only [Except.bind, hc, Bool.false_eq_true, if_false]
      exact heq

theorem liftScan_manyCounted (t : TypeResolver) (fuel : Nat) (defs : Defs) :
    ∀ (l : List Schema) (acc : Schema),
      (∀ sch ∈ l, ∃ tp, t.resolveSchema fuel defs (some sch) true true = .ok tp) →
      2 ≤ (l.filter liftCounted).length →
      ∃ acc', liftScan t fuel defs l 0 acc = .ok (2, acc') := by
  intro l
  induction l with
  | nil => intro acc _ h; simp [List.filter] at h
  | cons sch rest ih =>
    intro acc hres hcnt
    obtain ⟨tp, htp⟩ := hres sch (List.mem_cons_self _ _)
    cases hc : liftCounted sch with
    | true =>
      have hlen : (List.filter liftCounted (sch :: rest)).length =
          (rest.filter liftCounted).length + 1 := by
        simp [List.filter, hc]
      have hrest : 1 ≤ (rest.filter liftCounted).length := by
        rw [hlen] at hcnt
        omega
      refine ⟨if liftCandidate tp then sch else acc, ?_⟩
      unfold liftScan
      rw [htp]
      simp only [Except.bind, hc, if_true]
      have := liftScan_fromOne t fuel defs rest
        (if liftCandidate tp then sch else acc)
        (fun s hs => hres s (List.mem_cons_of_mem _ hs)) hrest
      simpa using this
    | false =>
      have hrest : 2 ≤ (rest.filter liftCounted).length := by
        simpa [List.filter, hc] using hcnt
      obtain ⟨acc', heq⟩ := ih acc
        (fun s hs => hres s (List.mem_cons_of_mem _ hs)) hrest
      refine ⟨acc', ?_⟩
      unfold liftScan
      rw [htp]
      simp only [Except.bind, hc, Bool.false_eq_true, if_false]
      exact heq

end KclOpenapi

namespace KclOpenapi

/-- A primitive allOf entry for the C1 counterexample: an `integer`
schema.  It is counted by the scan and is a lift candidate. -/
def c1Prim : Schema :=
  Schema.mk { type := [integerT] } [] false none [] none none []

/-- An anonymous-object allOf entry for the C1 counterexample: an
inline object with one property.  It is counted by the scan but is not
a lift candidate (it resolves as an anonymous complex object). -/
def c1AnonObj : Schema :=
  Schema.mk { type := [objectT] }
    [("a", Schema.mk { type := [strT] } [] false none [] none none [])]
    false none [] none none []

/-- The root context of definition `M` whose body is
`allOf: [c1Prim, c1AnonObj]`. -/
def c1Ctx : Ctx :=
  defRootCtx [] "M" (Schema.empty.withAllOf [c1Prim, c1AnonObj]) false

/-- C1.  Counterexample: in `allOf: [integer, anonymous object]`,
exactly one entry (`c1Prim`) qualifies as liftable in the spec's sense
(it resolves to a primitive) and the other does not (it resolves to an
anonymous complex object), yet `liftSpecialAllOf` leaves the schema
unchanged (its allOf keeps both entries): the code counts entries that
declare a type, properties, a reference or a nested allOf, not entries
that qualify as lift candidates. -/
theorem C1_counterexample :
    (∃ tp0, c1Ctx.resolver.resolveSchema 4 [] (some c1Prim) true true = .ok tp0 ∧
      liftCandidate tp0 = true) ∧
    (∃ tp1, c1Ctx.resolver.resolveSchema 4 [] (some c1AnonObj) true true = .ok tp1 ∧
      liftCandidate tp1 = false) ∧
    c1Ctx.schema.allOf = [c1Prim, c1AnonObj] ∧
    Ctx.liftSpecialAllOf c1Ctx 4 [] = .ok c1Ctx := by
  refine ⟨⟨_, rfl, rfl⟩, ⟨_, rfl, rfl⟩, rfl, ?_⟩
  rfl

/-- C1 (amended).  With two or more allOf entries, all of which
resolve, `liftSpecialAllOf` is characterised by the number of counted
entries (entries declaring a type, properties, a reference or a nested
allOf): zero counted entries leave the context unchanged; exactly one
counted entry replaces the whole schema by that entry when it is a lift
candidate and by the zero schema otherwise; two or more counted entries
leave the context unchanged. -/
theorem C1_lift_characterization (sg : Ctx) (fuel : Nat) (defs : Defs)
    (h2 : 2 ≤ sg.schema.allOf.length)
    (hres : ∀ sch ∈ sg.schema.allOf,
      ∃ tp, sg.resolver.resolveSchema fuel defs (some sch) true true = .ok tp) :
    ((sg.schema.allOf.filter liftCounted).length = 0 →
      sg.liftSpecialAllOf fuel defs = .ok sg) ∧
    ((sg.schema.allOf.filter liftCounted).length = 1 →
      ∃ e tp, e ∈ sg.schema.allOf ∧ liftCounted e = true ∧
        sg.resolver.resolveSchema fuel defs (some e) true true = .ok tp ∧
        sg.liftSpecialAllOf fuel defs =
          .ok { sg with schema := if liftCandidate tp then e else Schema.empty }) ∧
    (2 ≤ (sg.schema.allOf.filter liftCounted).length →
      sg.liftSpecialAllOf fuel defs = .ok sg) := by
  have hg : ¬ sg.schema.allOf.length < 2 := by omega
  refine ⟨?_, ?_, ?_⟩
  · intro h0
    have hs := liftScan_noCounted sg.resolver fuel defs sg.schema.allOf 0
      Schema.empty hres h0
    unfold Ctx.liftSpecialAllOf
    rw [if_neg hg, hs]
    rfl
  · intro h1
    obtain ⟨e, tp, hmem, hce, htp, hs⟩ := liftScan_oneCounted sg.resolver fuel
      defs sg.schema.allOf Schema.empty hres h1
    refine ⟨e, tp, hmem, hce, htp, ?_⟩
    unfold Ctx.liftSpecialAllOf
    rw [if_neg hg, hs]
    rfl
  · intro hmany
    obtain ⟨acc', hs⟩ := liftScan_manyCounted sg.resolver fuel defs
      sg.schema.allOf Schema.empty hres hmany
    unfold Ctx.liftSpecialAllOf
    rw [if_neg hg, hs]
    rfl

/-- Witness for C1: the characterisation applied to the concrete
two-entry context `c1Ctx`, whose two entries are both counted, so the
lift leaves it unchanged. -/
theorem C1_lift_characterization_witness :
    2 ≤ (c1Ctx.schema.allOf.filter liftCounted).length ∧
    Ctx.liftSpecialAllOf c1Ctx 4 [] = .ok c1Ctx := by
  have h := C1_lift_characterization c1Ctx 4 [] (by decide)
    (by
      intro sch hmem
      have : sch = c1Prim ∨ sch = c1AnonObj := by
        simpa [c1Ctx, defRootCtx, Schema.withAllOf, Schema.empty,
          Schema.allOf] using hmem
      rcases this with h | h
      · exact h ▸ ⟨_, rfl⟩
      · exact h ▸ ⟨_, rfl⟩)
  exact ⟨by decide, h.2.2 (by decide)⟩

end KclOpenapi

namespace KclOpenapi

/-- A string property schema for C4, with an optional `x-order`
extension (the keep-order preprocessing injects 0,1,2 in declared
order). -/
def c4Str (ord : Option Int) : Schema :=
  Schema.mk { type := [strT], exts := { xOrder := ord } } [] false none [] none none []

/-- Properties `b`, `a`, `c` as declared in the source document with
keep-order preprocessing applied: `x-order` is the declared index. -/
def c4PropsKeep : List (String × Schema) :=
  [("b", c4Str (some 0)), ("a", c4Str (some 1)), ("c", c4Str (some 2))]

/-- The same properties without order preservation: no `x-order`. -/
def c4PropsPlain : List (String × Schema) :=
  [("b", c4Str none), ("a", c4Str none), ("c", c4Str none)]

/-- An object definition carrying the given property map. -/
def c4Schema (ps : List (String × Schema)) : Schema :=
  Schema.mk { type := [objectT] } ps false none [] none none []

/-- The names of the generated Properties of definition `M`, in order,
when its property map is stored in the order `ps`. -/
def c4Names (ps : List (String × Schema)) (keep : Bool) : List String :=
  match makeGenDefinition 8 anTrivial "M" [("M", c4Schema ps)] keep with
  | .ok gd => gd.genSchema.properties.map fun g => g.core.name
  | .error _ => []

/-- C4.  Property ordering is deterministic: however the property map
of definition `M` is stored (any permutation, modelling Go's arbitrary
map iteration order), with order preservation the generated Properties
appear in the declared order `b`, `a`, `c` recorded by the injected
`x-order` extensions, and without it they appear lexicographically as
`a`, `b`, `c`. -/
theorem C4_property_ordering :
    (∀ ps, ps.Perm c4PropsKeep → c4Names ps true = ["b", "a", "c"]) ∧
    (∀ ps, ps.Perm c4PropsPlain → c4Names ps false = ["a", "b", "c"]) := by
  constructor
  · have hall : ∀ ps ∈ c4PropsKeep.permutations', c4Names ps true = ["b", "a", "c"] := by
      decide
    intro ps h
    exact hall ps (List.mem_permutations'.mpr h)
  · have hall : ∀ ps ∈ c4PropsPlain.permutations', c4Names ps false = ["a", "b", "c"] := by
      decide
    intro ps h
    exact hall ps (List.mem_permutations'.mpr h)

/-- Witness for C4: the ordering theorem applied to two concrete
storage orders. -/
theorem C4_property_ordering_witness :
    c4Names [("a", c4Str (some 1)), ("b", c4Str (some 0)), ("c", c4Str (some 2))] true
        = ["b", "a", "c"] ∧
    c4Names c4PropsPlain false = ["a", "b", "c"] :=
  ⟨C4_property_ordering.1 _ (List.Perm.swap _ _ _),
   C4_property_ordering.2 c4PropsPlain (List.Perm.refl _)⟩

end KclOpenapi

namespace KclOpenapi

@[simp] theorem GenSchema.withAllOf_allOf (g : GenSchema) (l : List GenSchema) :
    (g.withAllOf l).allOf = l := rfl

@[simp] theorem GenSchema.withAllOf_rt (g : GenSchema) (l : List GenSchema) :
    (g.withAllOf l).rt = g.rt := rfl

/-- The root generation context of a named definition `nm` whose whole
body is the bare reference `r`. -/
def c5Root (defs : Defs) (nm r : String) (ko : Bool) : Ctx :=
  defRootCtx defs nm (refProperty r) ko

/-- `c5Root` after `makeGenSchema` has installed the initial generation
schema core (name, escaped name, validations), the state in which
`shortCircuitNamedRef` runs. -/
def c5Step (defs : Defs) (nm r : String) (ko : Bool) : Ctx :=
  { c5Root defs nm r ko with genSchema :=
    (c5Root defs nm r ko).genSchema.modCore fun c =>
      { c with
        isExported := true
        originalName := (c5Root defs nm r ko).name
        name := (c5Root defs nm r ko).kclName
        escapedName := mangleModelName ((c5Root defs nm r ko).kclName)
        title := (c5Root defs nm r ko).schema.core.title
        description := (c5Root defs nm r ko).schema.core.description
        sv := { required := (c5Root defs nm r ko).required }
        readOnly := (c5Root defs nm r ko).schema.core.readOnly
        strictAdditionalProperties :=
          (c5Root defs nm r ko).strictAdditionalProperties } }

/-- The composition branch context that `shortCircuitNamedRef` builds
from the bare reference when the referenced schema is not aliasable. -/
def c5Item (defs : Defs) (nm r : String) (ko : Bool) : Ctx :=
  (c5Step defs nm r ko).newCompositionBranch (refProperty r) 0

/-- `makeGenSchema` on the empty-bodied context that the alias
short-circuit synthesizes always succeeds and leaves the allOf list
empty. -/
theorem mgs_empty_ok (an : Analyzer) (f : Nat) (d : Defs) (name : String)
    (rsv : TypeResolver) (ds dd : List String) (ko str : Bool) :
    ∃ out d',
      makeGenSchema an (f + 2) d
        { required := false, additionalProperty := false, named := true,
          refHandled := false, isVirtual := false, isTuple := false,
          strictAdditionalProperties := str, keepOrder := ko, index := 0,
          path := "", name := name, indexVar := "i", keyVar := "",
          container := "", schema := Schema.mk {} [] false none [] none none [],
          resolver := rsv,
          genSchema := GenSchema.empty, dependencies := [], extraSchemas := [],
          discriminators := ds, discriminated := dd } = .ok (out, d') ∧
        out.genSchema.allOf = [] :=
  ⟨_, _, rfl, rfl⟩

set_option maxHeartbeats 1000000 in
/-- C5.  Alias short-circuit of `shortCircuitNamedRef`: a named
definition whose whole body is a bare reference builds, when the
referenced schema analyzes as aliasable (array, map, known type or base
type), a pure alias whose resolved type copies the analyzer verdicts
and the reference's resolved swagger type, with no allOf branch; when
the referenced schema is not aliasable, the result instead carries
exactly one allOf composition branch built from the reference and is a
complex object. -/
theorem C5_alias_short_circuit (an : Analyzer) (f : Nat) (defs : Defs) (nm r : String)
    (ko : Bool) (hr : r ≠ "") :
    (((an defs (refProperty r)).isArray || (an defs (refProperty r)).isMap ||
        (an defs (refProperty r)).isKnownType ||
        (an defs (refProperty r)).isBaseType) = true →
      ∀ tpx, (c5Root defs nm r ko).resolver.resolveSchema (f + 2) defs
          (some (refProperty r)) false true = .ok tpx →
        ∃ res d',
          makeGenSchema an (f + 3) defs (c5Root defs nm r ko) = .ok (res, d') ∧
          res.genSchema.allOf = [] ∧
          res.genSchema.rt.flags.isArray = (an defs (refProperty r)).isArray ∧
          res.genSchema.rt.flags.isMap = (an defs (refProperty r)).isMap ∧
          res.genSchema.rt.flags.isPrimitive =
            (an defs (refProperty r)).isKnownType ∧
          res.genSchema.rt.flags.isComplexObject = false ∧
          res.genSchema.rt.flags.isBaseType = tpx.flags.isBaseType ∧
          res.genSchema.rt.swaggerType = tpx.swaggerType ∧
          res.genSchema.rt.kclType =
            (c5Root defs nm r ko).resolver.kclTypeName (pathBase r)) ∧
    (((an defs (refProperty r)).isArray || (an defs (refProperty r)).isMap ||
        (an defs (refProperty r)).isKnownType ||
        (an defs (refProperty r)).isBaseType) = false →
      ∀ item d2,
        makeGenSchema an (f + 2) defs (c5Item defs nm r ko) = .ok (item, d2) →
        ∃ res d',
          makeGenSchema an (f + 3) defs (c5Root defs nm r ko) = .ok (res, d') ∧
          res.genSchema.allOf = [item.genSchema] ∧
          res.genSchema.rt.flags.isComplexObject = true) := by
  have hsv : (c5Root defs nm r ko).schemaValidations = .ok {} := rfl
  constructor
  · intro ha tpx hA
    simp only [c5Root, defRootCtx, refProperty] at ha hA
    unfold makeGenSchema shortCircuitNamedRefWith
    rw [hsv]
    simp only [Except.instMonad, Except.bind, Bind.bind, Except.pure, pure,
      c5Root, defRootCtx, refProperty, Schema.ref, hr, Schema.core,
      Schema.empty, Bool.false_eq_true, not_true, false_or, or_false, or_self,
      if_false, if_true, ite_false, ite_true, ne_eq, eq_self_iff_true,
      not_false_iff, ha, hA, Ctx.makeNewSchema]
    obtain ⟨out, d2, hcc, hall⟩ := mgs_empty_ok an f
      (setDef defs (toGoName nm) (Schema.mk {} [] false none [] none none []))
      (toGoName nm)
      (TypeResolver.newWithModelName
        { modelsPackage := (newTypeResolver "" defs).modelsPackage,
          modelName := nm, knownDefs := (newTypeResolver "" defs).knownDefs }
        (setDef defs (toGoName nm) (Schema.mk {} [] false none [] none none []))
        (toGoName nm))
      (discriminatorRefs defs) (discriminatedRefs defs) ko false
    rw [hcc]
    refine ⟨_, _, rfl, ?_, ?_, ?_, ?_, ?_, ?_, ?_, ?_⟩
    · simp only [GenSchema.modCore_allOf, GenSchema.withRT_allOf, hall]
    · simp only [GenSchema.modCore_rt, GenSchema.withRT_rt]
      rfl
    · simp only [GenSchema.modCore_rt, GenSchema.withRT_rt]
      rfl
    · simp only [GenSchema.modCore_rt, GenSchema.withRT_rt]
      rfl
    · simp only [GenSchema.modCore_rt, GenSchema.withRT_rt]
      rfl
    · simp only [GenSchema.modCore_rt, GenSchema.withRT_rt]
      rfl
    · simp only [GenSchema.modCore_rt, GenSchema.withRT_rt]
      rfl
    · simp only [GenSchema.modCore_rt, GenSchema.withRT_rt]
      rfl
  · intro hb item d2 hB
    simp only [c5Root, defRootCtx, refProperty] at hb
    simp only [c5Item, c5Step, c5Root, defRootCtx, refProperty, Schema.ref,
      Schema.core, Schema.empty, ne_eq, eq_self_iff_true, not_true, if_false,
      ite_false, ite_true, if_true, Bool.false_eq_true, not_false_iff] at hB
    unfold makeGenSchema shortCircuitNamedRefWith
    rw [hsv]
    simp only [Except.instMonad, Except.bind, Bind.bind, Except.pure, pure,
      c5Root, defRootCtx, refProperty, Schema.ref, hr, Schema.core,
      Schema.empty, Bool.false_eq_true, not_true, false_or, or_false, or_self,
      if_false, if_true, ite_false, ite_true, ne_eq, eq_self_iff_true,
      not_false_iff, hb, Ctx.makeNewSchema]
    rw [hB]
    refine ⟨_, _, rfl, ?_, ?_⟩
    · simp only [GenSchema.withAllOf_allOf, Ctx.mergeResult_genSchema_allOf,
        GenSchema.withRT_allOf, GenSchema.modCore_allOf]
      rfl
    · simp only [GenSchema.withAllOf_rt, Ctx.mergeResult_genSchema_rt,
        GenSchema.withRT_rt]
      rfl

/-- A definition `Bar`: an array of strings. -/
def c5Bar : Schema :=
  Schema.mk { type := [arrayT] } [] true (some strSchemaP) [] none none []

/-- Definitions for the C5 witness: `Foo` is a bare reference to the
array definition `Bar`. -/
def c5Defs : Defs :=
  [("Foo", refProperty "#/definitions/Bar"), ("Bar", c5Bar)]

/-- The analyzer verdict for the C5 witness: the reference to `Bar`
analyzes as an array. -/
def c5An : Analyzer := fun _ s =>
  if s.ref = "#/definitions/Bar" then { isArray := true, isSimpleSchema := true }
  else {}

/-- The resolved type of the bare reference to `Bar`: an array of
`str` resolved through the reference. -/
def c5Tpx : ResolvedType :=
  ResolvedType.mk { isArray := true, isComplexObject := true } "Bar" "array"
    "" "" "" ""
    (some (ResolvedType.mk { isPrimitive := true, isEmptyOmitted := true }
      "str" "string" "" "" "" "" none))

/-- Witness for C5: definition `Foo`, a bare reference to the
array-of-strings definition `Bar`, generates as a pure alias with
`isArray` and no allOf branches. -/
theorem C5_alias_short_circuit_witness :
    ∃ res d',
      makeGenSchema c5An (2 + 3) c5Defs
          (c5Root c5Defs "Foo" "#/definitions/Bar" false) = .ok (res, d') ∧
      res.genSchema.allOf = [] ∧
      res.genSchema.rt.flags.isArray =
        (c5An c5Defs (refProperty "#/definitions/Bar")).isArray ∧
      res.genSchema.rt.flags.isMap =
        (c5An c5Defs (refProperty "#/definitions/Bar")).isMap ∧
      res.genSchema.rt.flags.isPrimitive =
        (c5An c5Defs (refProperty "#/definitions/Bar")).isKnownType ∧
      res.genSchema.rt.flags.isComplexObject = false ∧
      res.genSchema.rt.flags.isBaseType = c5Tpx.flags.isBaseType ∧
      res.genSchema.rt.swaggerType = c5Tpx.swaggerType ∧
      res.genSchema.rt.kclType =
        (c5Root c5Defs "Foo" "#/definitions/Bar" false).resolver.kclTypeName
          (pathBase "#/definitions/Bar") :=
  (C5_alias_short_circuit c5An 2 c5Defs "Foo" "#/definitions/Bar" false
    (by decide)).1 rfl c5Tpx (by rfl)

end KclOpenapi
